import Mathlib

/-!
# A verification development for `shell.c`

The shell of `src/shell.c` is embedded as pure functions over explicit state:

* descriptor tables (`FdTable`) with `pipe`, `dup2` and `close`, and the two
  pipeline builders `checkEnv` and `checkEnvArg` over them;
* the argument buffer (`Buff`), `freeBuff`, `readline` and the dispatch of `main`;
* the child table of the process (`Kids`) with `wait`/`waitpid`, the
  `SIGCHLD_handler`, and `executeCmd` / `executeCmdBg`;
* `getHOME` and `cd`.

Calls into the operating system are parameters of the model (`Env`, the result
of `fork`, the line delivered by `fgets`).
-/

namespace Shell

/-! ## Constants -/

/-- The build constant `SIGDET`: 1 selects detection of terminated children by signal. -/
def SIGDET : Nat := 1

/-- The size of the line buffer and the number of slots of the argument buffer. -/
def BUFFSIZE : Nat := 128

def STDIN_FILENO : Nat := 0

def STDOUT_FILENO : Nat := 1

/-! ## The environment of a process -/

/-- What the operating system answers: `getenv`, whether an `exec` of a program
name succeeds, and whether `chdir` to a path succeeds. -/
structure Env where
  getenv : String → Option String
  canExec : String → Bool
  chdirOk : String → Bool

/-! ## Descriptor tables -/

/-- An open file description: one the shell already had, or an end of the pipe
created by the `k`-th `pipe()` call of a pipeline builder. -/
inductive FileRef where
  | inherited (n : Nat)
  | pipeRead (k : Nat)
  | pipeWrite (k : Nat)
  deriving DecidableEq, Repr

/-- Whether a descriptor slot refers to an end of some pipe. -/
def isPipeEnd : Option FileRef → Bool
  | some (.pipeRead _) => true
  | some (.pipeWrite _) => true
  | _ => false

/-- The descriptor table of a process: slot `fd` is `none` when `fd` is closed.
Descriptors beyond the end of the list are closed. -/
abbrev FdTable := List (Option FileRef)

/-- The open file description behind descriptor `fd`, if it is open. -/
def lookup (t : FdTable) (fd : Nat) : Option FileRef :=
  t.getD fd none

/-- Make descriptor `fd` refer to `v` (`none` closes it). -/
def install : FdTable → Nat → Option FileRef → FdTable
  | [], 0, v => [v]
  | [], fd + 1, v => none :: install [] fd v
  | _ :: t, 0, v => v :: t
  | x :: t, fd + 1, v => x :: install t fd v

/-- The lowest-numbered closed descriptor, the one the kernel hands out next. -/
def lowestFree : FdTable → Nat
  | [] => 0
  | none :: _ => 0
  | some _ :: t => lowestFree t + 1

/-- The part of a process the pipeline builders act on: its descriptor table
and what it has written to standard error. -/
structure Proc where
  fds : FdTable
  err : List String
  deriving DecidableEq, Repr

/-- The array `int p[2]` filled by `pipe()`: `rd` is `p[PIPE_READ]`, `wr` is
`p[PIPE_WRITE]`. -/
structure PipeFds where
  rd : Nat
  wr : Nat
  deriving DecidableEq, Repr

/-- A successful `pipe()`: the two lowest closed descriptors become the read
and the write end of pipe number `k`. -/
def pipe (k : Nat) (p : Proc) : PipeFds × Proc :=
  let r := lowestFree p.fds
  let t := install p.fds r (some (.pipeRead k))
  let w := lowestFree t
  (⟨r, w⟩, { p with fds := install t w (some (.pipeWrite k)) })

/-- The call `dup2(oldfd, newfd)` with the source's reaction to failure:
`if (dup2(..) == -1) <report msg>`. It fails when `oldfd` is not open. -/
def dup2 (p : Proc) (oldfd newfd : Nat) (msg : String) : Proc :=
  match lookup p.fds oldfd with
  | none => { p with err := p.err ++ [msg] }
  | some r => { p with fds := install p.fds newfd (some r) }

/-- The call `close(fd)` with the source's reaction to failure:
`if (close(fd) == -1) fprintf(stderr, "Could not close()\n")`. -/
def close (p : Proc) (fd : Nat) : Proc :=
  match lookup p.fds fd with
  | none => { p with err := p.err ++ ["Could not close()"] }
  | some _ => { p with fds := install p.fds fd none }

/-! ## The argument buffer -/

/-- The array `char *buff[BUFFSIZE]`: a slot is `none` for `NULL`, else the
string it points to. -/
abbrev Buff := List (Option String)

/-- The function `freeBuff`: every slot that is not `NULL` is freed and set to `NULL`.
Returns the buffer and the strings freed, in slot order. -/
def freeBuff : Buff → Buff × List String
  | [] => ([], [])
  | none :: rest => (none :: (freeBuff rest).1, (freeBuff rest).2)
  | some s :: rest => (none :: (freeBuff rest).1, s :: (freeBuff rest).2)

/-- The argument vector `exec` reads from `buff`: the strings before the first `NULL`. -/
def argvOf : Buff → List String
  | some s :: rest => s :: argvOf rest
  | _ => []

/-! ## Forked children -/

/-- How the code a forked child runs comes to an end. -/
inductive ChildEnd where
  /-- An `exec` call succeeded: the process image is replaced. -/
  | execd (file : String) (argv : List String)
  /-- The child called `exit(code)`. -/
  | exited (code : Nat)
  /-- The child returned from the function that forked it, back into its caller. -/
  | returned
  deriving DecidableEq, Repr

/-- The record of a forked child: its descriptor table and diagnostics when it
ends (no descriptor changes between its first `exec` call and its end), the
strings it freed, the `exec` calls it issued in order, and how it ended. -/
structure Child where
  proc : Proc
  freed : List String
  tried : List (String × List String)
  fin : ChildEnd
  deriving DecidableEq, Repr

/-- The calls `execlp(file, file, (char *) 0); exit(1);` that end a stage. -/
def execOrExit (e : Env) (p : Proc) (freed : List String) (file : String) : Child :=
  if e.canExec file then ⟨p, freed, [(file, [file])], .execd file [file]⟩
  else ⟨p, freed, [(file, [file])], .exited 1⟩

/-- The tail of the pager stage shared by both builders once `PAGER` is out of
the way: `execlp("less"..); execlp("more"..); fprintf(stderr, ..); exit(1);`.
`before` holds the `exec` calls already issued. -/
def lessOrMore (e : Env) (p : Proc) (freed : List String)
    (before : List (String × List String)) : Child :=
  if e.canExec "less" then
    ⟨p, freed, before ++ [("less", ["less"])], .execd "less" ["less"]⟩
  else if e.canExec "more" then
    ⟨p, freed, before ++ [("less", ["less"]), ("more", ["more"])], .execd "more" ["more"]⟩
  else
    ⟨{ p with err := p.err ++ ["Could not find less/more/PAGER"] }, freed,
      before ++ [("less", ["less"]), ("more", ["more"])], .exited 1⟩

/-- The end of the pager stage of `checkEnv` (lines 413-420):
`if (pager != NULL) { execlp(pager, pager, (char *) 0); return; }` and then
`less`, `more`, the diagnostic and `exit(1)`. -/
def checkEnv_pagerExec (e : Env) (p : Proc) : Child :=
  match e.getenv "PAGER" with
  | some pager =>
    if e.canExec pager then ⟨p, [], [(pager, [pager])], .execd pager [pager]⟩
    else ⟨p, [], [(pager, [pager])], .returned⟩
  | none => lessOrMore e p [] []

/-- The end of the pager stage of `checkEnvArg` (lines 665-671):
`if (pager != NULL) { execlp(pager, pager, (char *) 0); }` and then
`less`, `more`, the diagnostic and `exit(1)`. -/
def checkEnvArg_pagerExec (e : Env) (p : Proc) (freed : List String) : Child :=
  match e.getenv "PAGER" with
  | some pager =>
    if e.canExec pager then ⟨p, freed, [(pager, [pager])], .execd pager [pager]⟩
    else lessOrMore e p freed [(pager, [pager])]
  | none => lessOrMore e p freed []

/-! ## The pipeline builders -/

/-- The calls of the parent process that the model records in order. -/
inductive Op where
  | perror (what : String)
  | sighold_SIGCHLD
  | sigrelse_SIGCHLD
  /-- The call `wait(&status)`: waits for any child. -/
  | wait
  /-- The call `waitpid(pid, &status, 0)`. -/
  | waitpid (pid : Int)
  | gettimeofday
  /-- The call `printf("%s exited, time used: %f s\n", buff[0], ..)`. -/
  | report (name : Option String)
  deriving DecidableEq, Repr

/-- A run of consecutive `close` statements, in source order. -/
def closeAll (p : Proc) (fds : List Nat) : Proc :=
  fds.foldl close p

/-- The descriptor state a child starts with after `fork`: a copy of the
table of its parent; it has written nothing yet. -/
def forked (p : Proc) : Proc :=
  { fds := p.fds, err := [] }

/-- The parent after `cp = fork(); .. if (-1 == cp) perror("fork");`. -/
def afterFork (ok : Bool) (p : Proc) : Proc :=
  if ok then p else { p with err := p.err ++ ["fork"] }

/-- What a pipeline builder did: the descriptors each `pipe()` returned, the
table of the parent at each `fork()`, the child of each fork (`none` when the
fork failed), the parent after its own `close` calls, and the calls the
parent issues from there to its return. -/
structure PipelineRun where
  pipes : List PipeFds
  atFork : List FdTable
  children : List (Option Child)
  parent : Proc
  ops : List Op

/-- The first child of `checkEnv` (lines 320-345): `printenv`. -/
def checkEnv_printenv (e : Env) (c : Proc) (pipe_1 pipe_2 : PipeFds) : Child :=
  let c := dup2 c pipe_1.wr STDOUT_FILENO "Could not dup2()"
  let c := closeAll c [pipe_1.rd, pipe_1.wr, pipe_2.rd, pipe_2.wr]
  execOrExit e c [] "printenv"

/-- The second child of `checkEnv` (lines 351-381): `sort`. -/
def checkEnv_sort (e : Env) (c : Proc) (pipe_1 pipe_2 : PipeFds) : Child :=
  let c := dup2 c pipe_1.rd STDIN_FILENO "Could not dup2()"
  let c := dup2 c pipe_2.wr STDOUT_FILENO "Could not dup2()"
  let c := closeAll c [pipe_1.rd, pipe_1.wr, pipe_2.rd, pipe_2.wr]
  execOrExit e c [] "sort"

/-- The third child of `checkEnv` (lines 387-421): the pager. -/
def checkEnv_pager (e : Env) (c : Proc) (pipe_1 pipe_2 : PipeFds) : Child :=
  let c := dup2 c pipe_2.rd STDIN_FILENO "Could not dup2()"
  let c := closeAll c [pipe_1.rd, pipe_1.wr, pipe_2.rd, pipe_2.wr]
  checkEnv_pagerExec e c

/-- The function `checkEnv`: `printenv | sort | pager`. `fork k` tells whether
the `k`-th `fork()` of the call succeeds; both `pipe()` calls succeed. -/
def checkEnv (e : Env) (fork : Nat → Bool) (p0 : Proc) : PipelineRun :=
  let a := pipe 1 p0
  let pipe_1 := a.1
  let b := pipe 2 a.2
  let pipe_2 := b.1
  let p := b.2
  let c1 := if fork 0 then some (checkEnv_printenv e (forked p) pipe_1 pipe_2) else none
  let q1 := afterFork (fork 0) p
  let c2 := if fork 1 then some (checkEnv_sort e (forked q1) pipe_1 pipe_2) else none
  let q2 := afterFork (fork 1) q1
  let c3 := if fork 2 then some (checkEnv_pager e (forked q2) pipe_1 pipe_2) else none
  let q3 := afterFork (fork 2) q2
  { pipes := [pipe_1, pipe_2]
    atFork := [p.fds, q1.fds, q2.fds]
    children := [c1, c2, c3]
    parent := closeAll q3 [pipe_1.rd, pipe_1.wr, pipe_2.rd, pipe_2.wr]
    ops := [.sighold_SIGCHLD, .wait, .wait, .wait, .sigrelse_SIGCHLD] }

/-- The five stores `buff[0][0] = 'g'; .. buff[0][4] = '\0';` of the grep
stage: the string in slot 0 (the word `checkEnv`, nine bytes) now reads `grep`. -/
def writeGrep : Buff → Buff
  | some _ :: rest => some "grep" :: rest
  | b => b

/-- The first child of `checkEnvArg` (lines 497-532): `printenv`. -/
def checkEnvArg_printenv (e : Env) (c : Proc) (buff : Buff)
    (pipe_1 pipe_2 pipe_3 : PipeFds) : Child :=
  let c := dup2 c pipe_1.wr STDOUT_FILENO "Could not dup2()"
  let c := closeAll c [pipe_1.rd, pipe_1.wr, pipe_2.rd, pipe_2.wr, pipe_3.rd, pipe_3.wr]
  execOrExit e c (freeBuff buff).2 "printenv"

/-- The second child of `checkEnvArg` (lines 538-582): `grep` with the
arguments of the user, `execvp("grep", buff); freeBuff(buff); exit(1);`. -/
def checkEnvArg_grep (e : Env) (c : Proc) (buff : Buff)
    (pipe_1 pipe_2 pipe_3 : PipeFds) : Child :=
  let c := dup2 c pipe_1.rd STDIN_FILENO "Could not dup2()"
  let c := dup2 c pipe_2.wr STDOUT_FILENO "Could not dup2()"
  let c := closeAll c [pipe_1.rd, pipe_1.wr, pipe_2.rd, pipe_2.wr, pipe_3.rd, pipe_3.wr]
  let buff := writeGrep buff
  if e.canExec "grep" then ⟨c, [], [("grep", argvOf buff)], .execd "grep" (argvOf buff)⟩
  else ⟨c, (freeBuff buff).2, [("grep", argvOf buff)], .exited 1⟩

/-- The third child of `checkEnvArg` (lines 588-624): `sort`. -/
def checkEnvArg_sort (e : Env) (c : Proc) (buff : Buff)
    (pipe_1 pipe_2 pipe_3 : PipeFds) : Child :=
  let c := dup2 c pipe_2.rd STDIN_FILENO "Could not dup2()"
  let c := dup2 c pipe_3.wr STDOUT_FILENO "pipe3 write"
  let c := closeAll c [pipe_1.rd, pipe_1.wr, pipe_2.rd, pipe_2.wr, pipe_3.rd, pipe_3.wr]
  execOrExit e c (freeBuff buff).2 "sort"

/-- The fourth child of `checkEnvArg` (lines 630-672): the pager. -/
def checkEnvArg_pager (e : Env) (c : Proc) (buff : Buff)
    (pipe_1 pipe_2 pipe_3 : PipeFds) : Child :=
  let c := dup2 c pipe_3.rd STDIN_FILENO "Could not dup2()"
  let c := closeAll c [pipe_1.rd, pipe_1.wr, pipe_2.rd, pipe_2.wr, pipe_3.rd, pipe_3.wr]
  checkEnvArg_pagerExec e c (freeBuff buff).2

/-- The function `checkEnvArg`: `printenv | grep <args> | sort | pager`.
`fork k` tells whether the `k`-th `fork()` of the call succeeds; the three
`pipe()` calls succeed. -/
def checkEnvArg (e : Env) (fork : Nat → Bool) (buff : Buff) (p0 : Proc) : PipelineRun :=
  let a := pipe 1 p0
  let pipe_1 := a.1
  let b := pipe 2 a.2
  let pipe_2 := b.1
  let d := pipe 3 b.2
  let pipe_3 := d.1
  let p := d.2
  let c1 := if fork 0 then
    some (checkEnvArg_printenv e (forked p) buff pipe_1 pipe_2 pipe_3) else none
  let q1 := afterFork (fork 0) p
  let c2 := if fork 1 then
    some (checkEnvArg_grep e (forked q1) buff pipe_1 pipe_2 pipe_3) else none
  let q2 := afterFork (fork 1) q1
  let c3 := if fork 2 then
    some (checkEnvArg_sort e (forked q2) buff pipe_1 pipe_2 pipe_3) else none
  let q3 := afterFork (fork 2) q2
  let c4 := if fork 3 then
    some (checkEnvArg_pager e (forked q3) buff pipe_1 pipe_2 pipe_3) else none
  let q4 := afterFork (fork 3) q3
  { pipes := [pipe_1, pipe_2, pipe_3]
    atFork := [p.fds, q1.fds, q2.fds, q3.fds]
    children := [c1, c2, c3, c4]
    parent := closeAll q4 [pipe_1.rd, pipe_1.wr, pipe_2.rd, pipe_2.wr, pipe_3.rd, pipe_3.wr]
    ops := [.sighold_SIGCHLD, .wait, .wait, .wait, .wait, .sigrelse_SIGCHLD] }

/-! ## Reading a line -/

/-- One call of `strtok(.., " ")` on the unread rest of `tmp`: leading spaces
are skipped; at the end of the string the result is `NULL`; otherwise the token
runs up to the next space (which is overwritten by a NUL) or to the end, and
the scan resumes behind that space. -/
def strtok (s : List Char) : Option (List Char × List Char) :=
  match s.dropWhile (fun c => c == ' ') with
  | [] => none
  | c :: cs =>
    some ((c :: cs).takeWhile (fun c => c != ' '),
      ((c :: cs).dropWhile (fun c => c != ' ')).tail)

/-- How a call of `readline` ends. -/
inductive ReadlineResult where
  /-- The function returned `code` and left the buffer as given. -/
  | ret (code : Nat) (buff : Buff)
  /-- A `malloc` failed: the strings before the first `NULL` slot are freed
  and the process calls `exit(code)`. -/
  | exited (code : Nat) (freed : List String)
  /-- A store went outside `tmp` or outside `buff`. -/
  | undefined
  deriving DecidableEq, Repr

/-- The `while` loop of `readline` (lines 74-90). `malloc i` tells whether the
allocation for word number `i` succeeds; `rest` is what `strtok` has not
scanned yet. The first argument bounds the number of iterations; `none` means
the bound was reached. -/
def readlineLoop (malloc : Nat → Bool) : Nat → List Char → Nat → Buff → Option ReadlineResult
  | 0, _, _, _ => none
  | fuel + 1, rest, index, buff =>
    match strtok rest with
    | none => some (.ret 0 buff)
    | some (current, rest1) =>
      if malloc index then
        if index < buff.length then
          readlineLoop malloc fuel rest1 (index + 1) (buff.set index (some (String.mk current)))
        else some .undefined
      else some (.exited 1 (argvOf buff))

/-- The function `readline`, from the result of `fgets` on (the prompt and the
`sighold`/`sigrelse` pairs around `fgets` leave `buff` alone). `res` is what
`fgets(tmp, BUFFSIZE, stdin)` gave: `none` for `NULL`, else the string now in
`tmp`. The statement `tmp[strlen(tmp)-1] = 0` drops the last byte of a
non-empty string and stores outside `tmp` for the empty one. -/
def readline (malloc : Nat → Bool) (res : Option (List Char)) (buff : Buff) :
    Option ReadlineResult :=
  match res with
  | none => some (.ret 1 buff)
  | some [] => some .undefined
  | some (c :: cs) => readlineLoop malloc ((c :: cs).length + 1) (c :: cs).dropLast 0 buff

/-! ## The loop of `main` -/

/-- What one iteration of the `while (1)` loop of `main` does once the line is read. -/
inductive Step where
  /-- The statement `break`: `readline` failed or the command is `exit`. -/
  | leave
  /-- The statement `continue` with no call made. -/
  | again
  | call_pwd
  | call_cd (cdpos : Option String)
  | call_checkEnvArg (buff : Buff)
  | call_checkEnv
  | call_executeCmd (buff : Buff) (background : Nat)
  /-- The process ended inside `readline`. -/
  | exited (code : Nat)
  | undefined
  deriving DecidableEq, Repr

/-- The `for` loop of `main` (lines 804-815): the first slot that is `NULL` or
holds `&` decides. `done` holds the slots already passed. -/
def findAmp (done : Buff) : Buff → Step
  | [] => .again
  | none :: rest => .call_executeCmd (done ++ none :: rest) 0
  | some s :: rest =>
    if s = "&" then .call_executeCmd (done ++ none :: rest) 1
    else findAmp (done ++ [some s]) rest

/-- Lines 781-815 of `main`: the dispatch on the words read. -/
def dispatch (buff : Buff) : Step :=
  match buff.getD 0 none with
  | none => .again
  | some cmd =>
    if cmd = "exit" then .leave
    else if cmd = "pwd" then .call_pwd
    else if cmd = "cd" then .call_cd (buff.getD 1 none)
    else if cmd = "checkEnv" ∧ buff.getD 1 none ≠ none then .call_checkEnvArg buff
    else if cmd = "checkEnv" then .call_checkEnv
    else findAmp [] buff

/-- One iteration of the loop of `main` (lines 771-815): `freeBuff`, `memset`,
`readline`, dispatch. `none` as for `readlineLoop`. -/
def mainIteration (malloc : Nat → Bool) (res : Option (List Char)) (buff : Buff) :
    Option Step :=
  match readline malloc res (freeBuff buff).1 with
  | none => none
  | some (.ret code b) => if code ≠ 0 then some .leave else some (dispatch b)
  | some (.exited code _) => some (.exited code)
  | some .undefined => some .undefined

/-- The line with its trailing newline, if it has one, removed. -/
def stripNewline (line : List Char) : List Char :=
  if line.getLast? = some '\n' then line.dropLast else line

/-! ## `cd` -/

/-- The function `getHOME`: the value of `HOME`, with the diagnostic when it is not set. -/
def getHOME (e : Env) : Option String × List String :=
  match e.getenv "HOME" with
  | none => (none, ["could not getenv(HOME)"])
  | some h => (some h, [])

/-- What a call of `cd` that returned did. -/
structure CdResult where
  ret : Nat
  err : List String
  chdirs : List String
  deriving DecidableEq, Repr

/-- The function `cd`. The first argument bounds the depth of the recursion
`return cd(getHOME());`; `none` means the bound was reached. -/
def cd (e : Env) : Nat → Option String → Option CdResult
  | 0, _ => none
  | fuel + 1, none =>
    (cd e fuel (getHOME e).1).map
      (fun r => { r with err := (getHOME e).2 ++ r.err })
  | _ + 1, some cdpos =>
    if e.chdirOk cdpos then some ⟨0, [], [cdpos]⟩
    else some ⟨1, ["Could not cd to " ++ cdpos], [cdpos]⟩

/-! ## Children of the shell and the `SIGCHLD` handler -/

/-- How a child terminated, as `wait` reports it. -/
inductive Status where
  | exited (code : Nat)
  | signaled (sig : Nat)
  deriving DecidableEq, Repr

/-- The children of the shell: the pids still running, and the terminated
children nobody has waited for yet, oldest first. -/
structure Kids where
  running : List Nat
  zombies : List (Nat × Status)
  deriving DecidableEq, Repr

/-- The outcome of a blocking `wait`/`waitpid` call. -/
inductive WaitResult where
  | reaped (pid : Nat) (st : Status) (kids : Kids)
  /-- The call returns -1: there is no child to wait for. -/
  | failed
  /-- No matching child has terminated yet: the caller sleeps. -/
  | blocks
  deriving DecidableEq, Repr

/-- The call `wait(&status)`: takes a terminated child if there is one. -/
def wait (k : Kids) : WaitResult :=
  match k.zombies with
  | (pid, st) :: rest => .reaped pid st { k with zombies := rest }
  | [] => if k.running = [] then .failed else .blocks

/-- The call `waitpid(pid, &status, 0)`; `pid = -1` is `wait`. -/
def waitpid (k : Kids) (pid : Int) : WaitResult :=
  if pid = -1 then wait k
  else
    match k.zombies.find? (fun z => (z.1 : Int) == pid) with
    | some z => .reaped z.1 z.2 { k with zombies := k.zombies.erase z }
    | none => if k.running.any (fun r => (r : Int) == pid) then .blocks else .failed

/-- What an invocation of the handler that returned did. -/
structure HandlerRun where
  kids : Kids
  reaped : Option Nat
  out : List String
  err : List String
  deriving DecidableEq, Repr

/-- The function `SIGCHLD_handler`: one `wait(&status)`, `perror("wait")` when
it fails, and `exited!` on standard output when `WIFEXITED(status)` holds
(`status` starts as 0, so it also holds after a failed `wait`). `none` when
the `wait` finds no terminated child and sleeps. -/
def SIGCHLD_handler (k : Kids) : Option HandlerRun :=
  match wait k with
  | .blocks => none
  | .failed => some ⟨k, none, ["exited!\n"], ["wait"]⟩
  | .reaped pid (.exited _) k1 => some ⟨k1, some pid, ["exited!\n"], []⟩
  | .reaped pid (.signaled _) k1 => some ⟨k1, some pid, [], []⟩

/-! ## Running one command -/

/-- The child code `execvp(buff[0], buff); freeBuff(buff); exit(1);`. An
`execvp` whose file is `NULL` is taken to fail; no statement below rests on
that case. -/
def execvpOrExit (e : Env) (p : Proc) (buff : Buff) : Child :=
  match buff.getD 0 none with
  | some file =>
    if e.canExec file then ⟨p, [], [(file, argvOf buff)], .execd file (argvOf buff)⟩
    else ⟨p, (freeBuff buff).2, [(file, argvOf buff)], .exited 1⟩
  | none => ⟨p, (freeBuff buff).2, [], .exited 1⟩

/-- What `executeCmd` did: the child of its fork (`none` when the fork
failed) and the calls of the parent after the fork, in order. -/
structure CmdRun where
  child : Option Child
  ops : List Op
  deriving DecidableEq, Repr

/-- The function `executeCmdBg` of the build with `SIGDET == 1` (lines 194-208).
`pid` is what `fork()` returned in the parent: -1 or the pid of the child. -/
def executeCmdBg (e : Env) (p : Proc) (buff : Buff) (pid : Int) : CmdRun :=
  { child := if pid = -1 then none else some (execvpOrExit e (forked p) buff)
    ops := if pid = -1 then [.perror "fork"] else [] }

/-- The function `executeCmd` (lines 258-297). `pid` is what `fork()` returned
in the parent: -1 or the pid of the child. -/
def executeCmd (e : Env) (p : Proc) (buff : Buff) (background : Nat) (pid : Int) : CmdRun :=
  if background ≠ 0 then executeCmdBg e p buff pid
  else
    { child := if pid = -1 then none else some (execvpOrExit e (forked p) buff)
      ops := (if pid = -1 then [Op.perror "fork"] else []) ++
        [.gettimeofday, .waitpid pid, .gettimeofday, .report (buff.getD 0 none)] }

/-! ## The shell process with asynchronous `SIGCHLD` -/

/-- What the log of a run records. -/
inductive Note where
  /-- The handler ran and returned; `reaped` is the pid its `wait` took. -/
  | handler (reaped : Option Nat)
  /-- A `wait`/`waitpid` of the main flow took the pid. -/
  | waited (pid : Nat)
  /-- A `wait`/`waitpid` of the main flow returned -1. -/
  | waitFailed
  /-- Any other call of the main flow. -/
  | did (op : Op)
  deriving DecidableEq, Repr

/-- The shell process in the build with `SIGDET == 1`: its children, whether
`SIGCHLD` is held (`sighold`) and whether one is pending, whether the process
sleeps inside the handler, the calls the main flow still has to issue, and
the log. -/
structure Sys where
  kids : Kids
  held : Bool
  pending : Bool
  inHandler : Bool
  todo : List Op
  log : List Note
  deriving DecidableEq, Repr

/-- What can happen next: a running child terminates, the kernel delivers
`SIGCHLD` (or wakes the handler sleeping in `wait`), or the main flow issues
its next call. -/
inductive Event where
  | childExits (pid : Nat) (st : Status)
  | signal
  | parent
  deriving DecidableEq, Repr

/-- The main flow issues its next call. A `wait`/`waitpid` that would sleep
leaves the state as it is. -/
def parentStep (s : Sys) : Sys :=
  match s.todo with
  | [] => s
  | .sighold_SIGCHLD :: rest =>
    { s with held := true, todo := rest, log := s.log ++ [.did .sighold_SIGCHLD] }
  | .sigrelse_SIGCHLD :: rest =>
    { s with held := false, todo := rest, log := s.log ++ [.did .sigrelse_SIGCHLD] }
  | .wait :: rest =>
    match wait s.kids with
    | .reaped pid _ k => { s with kids := k, todo := rest, log := s.log ++ [.waited pid] }
    | .failed => { s with todo := rest, log := s.log ++ [.waitFailed] }
    | .blocks => s
  | .waitpid pid :: rest =>
    match waitpid s.kids pid with
    | .reaped pid _ k => { s with kids := k, todo := rest, log := s.log ++ [.waited pid] }
    | .failed => { s with todo := rest, log := s.log ++ [.waitFailed] }
    | .blocks => s
  | op :: rest => { s with todo := rest, log := s.log ++ [.did op] }

/-- One event. `SIGCHLD` is delivered only when it is pending and not held;
delivery runs `SIGCHLD_handler`, and while the handler sleeps in `wait` the
main flow does not advance. -/
def step (s : Sys) : Event → Sys
  | .childExits pid st =>
    if pid ∈ s.kids.running then
      { s with
        kids := { running := s.kids.running.erase pid, zombies := s.kids.zombies ++ [(pid, st)] }
        pending := true }
    else s
  | .signal =>
    if s.inHandler ∨ (s.pending ∧ ¬ s.held) then
      match SIGCHLD_handler s.kids with
      | some r =>
        { s with kids := r.kids, pending := false, inHandler := false,
                 log := s.log ++ [.handler r.reaped] }
      | none => { s with pending := false, inHandler := true }
    else s
  | .parent => if s.inHandler then s else parentStep s

/-- The state after a sequence of events. -/
def runEvents (s : Sys) (evs : List Event) : Sys :=
  evs.foldl step s

/-- The shell right after the `fork()` of a foreground `executeCmd` returned
`pid` in the parent: the child runs, no signal is held or pending, and the
main flow has the rest of `executeCmd` before it. -/
def afterForegroundFork (e : Env) (p : Proc) (buff : Buff) (pid : Nat) : Sys :=
  { kids := { running := [pid], zombies := [] }
    held := false
    pending := false
    inHandler := false
    todo := (executeCmd e p buff 0 pid).ops
    log := [] }

/-! ## What the statements about descriptors speak of -/

/-- The table the shell enters a pipeline builder with: every open descriptor
refers to a file description that exists already. -/
def startTable (t0 : List (Option Nat)) : FdTable :=
  t0.map (Option.map FileRef.inherited)

/-- All descriptors returned by the `pipe()` calls: both ends of every pipe. -/
def pipeDescriptors : List PipeFds → List Nat
  | [] => []
  | pf :: rest => pf.rd :: pf.wr :: pipeDescriptors rest

/-- Every descriptor of the list is closed in the table. -/
def allClosed (t : FdTable) (fds : List Nat) : Prop :=
  ∀ fd ∈ fds, lookup t fd = none

/-- The table refers to ends of pipes at standard input and standard output only. -/
def pipeEndsOnlyStd (t : FdTable) : Prop :=
  ∀ fd, isPipeEnd (lookup t fd) = true → fd = STDIN_FILENO ∨ fd = STDOUT_FILENO

/-- The table refers to no end of a pipe. -/
def noPipeEnds (t : FdTable) : Prop :=
  ∀ fd, isPipeEnd (lookup t fd) = false

/-- In every child, when it calls `exec`, all descriptors returned by `pipe()`
are closed and ends of pipes are left at standard input and output only; in
the parent, before its first `wait`, all of them are closed and no end of a
pipe is left. -/
def PipesClosed (run : PipelineRun) : Prop :=
  (∀ c, some c ∈ run.children →
    allClosed c.proc.fds (pipeDescriptors run.pipes) ∧ pipeEndsOnlyStd c.proc.fds) ∧
  allClosed run.parent.fds (pipeDescriptors run.pipes) ∧ noPipeEnds run.parent.fds

/-- Stage `k` (counted from 1) of a chain of `n` stages has the read end of
pipe `k - 1` as standard input and the write end of pipe `k` as standard
output; the first stage keeps the standard input and the last stage the
standard output of the table `t0` the shell entered the builder with. -/
def stageWired (t0 : FdTable) (n k : Nat) (c : Child) : Prop :=
  lookup c.proc.fds STDIN_FILENO =
    (if k = 1 then lookup t0 STDIN_FILENO else some (.pipeRead (k - 1))) ∧
  lookup c.proc.fds STDOUT_FILENO =
    (if k = n then lookup t0 STDOUT_FILENO else some (.pipeWrite k))

/-- The program the pager stage tries first: the value of `PAGER`, else `less`. -/
def firstPager (e : Env) : String :=
  (e.getenv "PAGER").getD "less"

/-- The run is a linear chain of the stages `progs` (program and argument
vector of the first `exec` call of each stage): one pipe between neighbours,
one child per successful fork, each child wired as its place in the chain
says, and at every `fork()` both ends of every pipe are open in the parent. -/
def chainWired (t0 : FdTable) (fork : Nat → Bool) (progs : List (String × List String))
    (run : PipelineRun) : Prop :=
  run.pipes.length + 1 = progs.length ∧
  run.children.map Option.isSome = (List.range progs.length).map fork ∧
  (∀ k c, run.children[k]? = some (some c) →
    stageWired t0 progs.length (k + 1) c ∧ c.tried.head? = progs[k]?) ∧
  run.atFork.length = progs.length ∧
  (∀ t ∈ run.atFork, ∀ k pf, run.pipes[k]? = some pf →
    lookup t pf.rd = some (.pipeRead (k + 1)) ∧ lookup t pf.wr = some (.pipeWrite (k + 1)))

/-- An environment in which no variable is set and every program can be executed. -/
def plainEnv : Env :=
  { getenv := fun _ => none, canExec := fun _ => true, chdirOk := fun _ => true }

/-- An environment in which `PAGER` names a program that cannot be executed,
while every other program can. -/
def badPagerEnv : Env :=
  { getenv := fun v => if v = "PAGER" then some "nopager" else none
    canExec := fun f => f != "nopager"
    chdirOk := fun _ => true }

/-- The descriptor table of a shell started from a terminal: 0, 1 and 2 are open. -/
def stdProc : Proc :=
  { fds := [some (.inherited 0), some (.inherited 1), some (.inherited 2)], err := [] }

/-- The descriptor table of a shell started with its standard output closed. -/
def noStdoutProc : Proc :=
  { fds := [some (.inherited 0), none, some (.inherited 2)], err := [] }

/-! # Theorems -/

/-! ## Descriptor tables: basic facts -/

theorem lookup_nil (fd : Nat) : lookup [] fd = none := by
  simp [lookup]

theorem lookup_cons_zero (x : Option FileRef) (t : FdTable) : lookup (x :: t) 0 = x := rfl

theorem lookup_cons_succ (x : Option FileRef) (t : FdTable) (fd : Nat) :
    lookup (x :: t) (fd + 1) = lookup t fd := rfl

theorem lookup_install (t : FdTable) (fd : Nat) (v : Option FileRef) (fd1 : Nat) :
    lookup (install t fd v) fd1 = if fd1 = fd then v else lookup t fd1 := by
  induction t generalizing fd fd1 with
  | nil =>
    induction fd generalizing fd1 with
    | zero => cases fd1 <;> simp [install, lookup_cons_zero, lookup_cons_succ, lookup_nil]
    | succ n ih =>
      cases fd1 with
      | zero => simp [install, lookup_cons_zero, lookup_nil]
      | succ m => simp [install, lookup_cons_succ, ih, lookup_nil]
  | cons x t ih =>
    cases fd with
    | zero => cases fd1 <;> simp [install, lookup_cons_zero, lookup_cons_succ]
    | succ n =>
      cases fd1 with
      | zero => simp [install, lookup_cons_zero]
      | succ m => simp [install, lookup_cons_succ, ih]

theorem lookup_lowestFree (t : FdTable) : lookup t (lowestFree t) = none := by
  induction t with
  | nil => simp [lookup_nil]
  | cons x t ih =>
    cases x with
    | none => simp [lowestFree, lookup_cons_zero]
    | some r => simp [lowestFree, lookup_cons_succ, ih]

theorem lookup_close (p : Proc) (fd fd1 : Nat) :
    lookup (close p fd).fds fd1 = if fd1 = fd then none else lookup p.fds fd1 := by
  unfold close
  cases h : lookup p.fds fd with
  | none =>
    by_cases hfd : fd1 = fd
    · simp [hfd, h]
    · simp [hfd]
  | some r => simp [lookup_install]

theorem lookup_closeAll (p : Proc) (l : List Nat) (fd1 : Nat) :
    lookup (closeAll p l).fds fd1 = if fd1 ∈ l then none else lookup p.fds fd1 := by
  induction l generalizing p with
  | nil => simp [closeAll]
  | cons a l ih =>
    have h := ih (close p a)
    simp only [closeAll, List.foldl_cons] at h ⊢
    rw [h, lookup_close]
    by_cases h1 : fd1 ∈ l
    · simp [h1]
    · by_cases h2 : fd1 = a
      · simp [h2]
      · simp [h1, h2]

theorem lookup_dup2 (p : Proc) (o n : Nat) (msg : String) (fd1 : Nat) :
    lookup (dup2 p o n msg).fds fd1 =
      if fd1 = n ∧ lookup p.fds o ≠ none then lookup p.fds o else lookup p.fds fd1 := by
  unfold dup2
  cases h : lookup p.fds o with
  | none => simp
  | some r =>
    by_cases h1 : fd1 = n
    · simp [lookup_install, h1]
    · simp [lookup_install, h1]

/-! ## Facts about `pipe` -/

theorem pipe_rd_free (k : Nat) (p : Proc) : lookup p.fds (pipe k p).1.rd = none := by
  simp [pipe, lookup_lowestFree]

theorem pipe_wr_spec (k : Nat) (p : Proc) :
    (pipe k p).1.wr ≠ (pipe k p).1.rd ∧ lookup p.fds (pipe k p).1.wr = none := by
  have h := lookup_lowestFree (install p.fds (lowestFree p.fds) (some (.pipeRead k)))
  rw [lookup_install] at h
  by_cases hw : lowestFree (install p.fds (lowestFree p.fds) (some (.pipeRead k)))
      = lowestFree p.fds
  · simp [hw] at h
  · simp only [hw, if_false] at h
    exact ⟨by simpa [pipe] using hw, by simpa [pipe] using h⟩

theorem lookup_pipe (k : Nat) (p : Proc) (fd : Nat) :
    lookup (pipe k p).2.fds fd =
      if fd = (pipe k p).1.wr then some (.pipeWrite k)
      else if fd = (pipe k p).1.rd then some (.pipeRead k)
      else lookup p.fds fd := by
  simp [pipe, lookup_install]

theorem pipe_rd_val (k : Nat) (p : Proc) :
    lookup (pipe k p).2.fds (pipe k p).1.rd = some (.pipeRead k) := by
  rw [lookup_pipe]
  have h := (pipe_wr_spec k p).1
  simp [Ne.symm h]

theorem pipe_wr_val (k : Nat) (p : Proc) :
    lookup (pipe k p).2.fds (pipe k p).1.wr = some (.pipeWrite k) := by
  rw [lookup_pipe]
  simp

/-- A descriptor that is open stays what it is across `pipe`. -/
theorem pipe_keeps (k : Nat) (p : Proc) (fd : Nat) (h : lookup p.fds fd ≠ none) :
    lookup (pipe k p).2.fds fd = lookup p.fds fd := by
  rw [lookup_pipe]
  have h1 : fd ≠ (pipe k p).1.wr := fun hc => h (hc ▸ (pipe_wr_spec k p).2)
  have h2 : fd ≠ (pipe k p).1.rd := fun hc => h (hc ▸ pipe_rd_free k p)
  simp [h1, h2]

/-- After `pipe`, ends of pipes sit where they sat before or at the two new descriptors. -/
theorem pipe_ends (k : Nat) (p : Proc) (S : List Nat)
    (h : ∀ fd, isPipeEnd (lookup p.fds fd) = true → fd ∈ S) (fd : Nat)
    (hfd : isPipeEnd (lookup (pipe k p).2.fds fd) = true) :
    fd ∈ (pipe k p).1.rd :: (pipe k p).1.wr :: S := by
  rw [lookup_pipe] at hfd
  by_cases h1 : fd = (pipe k p).1.wr
  · simp [h1]
  · by_cases h2 : fd = (pipe k p).1.rd
    · simp [h2]
    · simp only [h1, h2, if_false] at hfd
      simp [h fd hfd]

theorem startTable_noPipeEnd (t0 : List (Option Nat)) (fd : Nat) :
    isPipeEnd (lookup (startTable t0) fd) = false := by
  induction t0 generalizing fd with
  | nil => simp [startTable, lookup_nil, isPipeEnd]
  | cons x t ih =>
    cases fd with
    | zero => cases x <;> simp [startTable, lookup_cons_zero, isPipeEnd]
    | succ n =>
      have h := ih n
      simp only [startTable] at h
      simpa [startTable, lookup_cons_succ] using h

theorem allClosed_closeAll (p : Proc) (l : List Nat) : allClosed (closeAll p l).fds l := by
  intro fd h
  simp [lookup_closeAll, h]

theorem isPipeEnd_dup2 (p : Proc) (o n : Nat) (msg : String) (fd : Nat)
    (h : isPipeEnd (lookup (dup2 p o n msg).fds fd) = true) :
    fd = n ∨ isPipeEnd (lookup p.fds fd) = true := by
  rw [lookup_dup2] at h
  by_cases h1 : fd = n
  · exact Or.inl h1
  · simp only [h1, false_and, if_false] at h
    exact Or.inr h

theorem isPipeEnd_closeAll (p : Proc) (l : List Nat) (fd : Nat)
    (h : isPipeEnd (lookup (closeAll p l).fds fd) = true) :
    fd ∉ l ∧ isPipeEnd (lookup p.fds fd) = true := by
  rw [lookup_closeAll] at h
  by_cases h1 : fd ∈ l
  · simp [h1, isPipeEnd] at h
  · simp only [h1, if_false] at h
    exact ⟨h1, h⟩

theorem afterFork_fds (ok : Bool) (p : Proc) : (afterFork ok p).fds = p.fds := by
  cases ok <;> rfl

theorem execOrExit_fds (e : Env) (p : Proc) (f : List String) (file : String) :
    (execOrExit e p f file).proc.fds = p.fds := by
  unfold execOrExit
  split <;> rfl

theorem lessOrMore_fds (e : Env) (p : Proc) (f : List String)
    (b : List (String × List String)) : (lessOrMore e p f b).proc.fds = p.fds := by
  unfold lessOrMore
  split
  · rfl
  · split <;> rfl

theorem checkEnv_pagerExec_fds (e : Env) (p : Proc) :
    (checkEnv_pagerExec e p).proc.fds = p.fds := by
  unfold checkEnv_pagerExec
  split
  · split <;> rfl
  · exact lessOrMore_fds e p [] []

theorem checkEnvArg_pagerExec_fds (e : Env) (p : Proc) (f : List String) :
    (checkEnvArg_pagerExec e p f).proc.fds = p.fds := by
  unfold checkEnvArg_pagerExec
  split
  · split
    · rfl
    · exact lessOrMore_fds _ _ _ _
  · exact lessOrMore_fds _ _ _ _

/-- A stage that duplicated onto standard input and output only and then
closed the list `l` holds ends of pipes at descriptors 0 and 1 at most, when
the table it started from held them inside `l` only. -/
theorem stage_onlyStd (q : Proc) (l : List Nat)
    (hq : ∀ fd, isPipeEnd (lookup q.fds fd) = true → fd ∈ l) (x : Proc)
    (hx : ∀ fd, isPipeEnd (lookup x.fds fd) = true →
      fd = STDIN_FILENO ∨ fd = STDOUT_FILENO ∨ isPipeEnd (lookup q.fds fd) = true) :
    pipeEndsOnlyStd (closeAll x l).fds := by
  intro fd h
  obtain ⟨hn, h1⟩ := isPipeEnd_closeAll x l fd h
  rcases hx fd h1 with h2 | h2 | h2
  · exact Or.inl h2
  · exact Or.inr h2
  · exact absurd (hq fd h2) hn

theorem dup_out (q : Proc) (a : Nat) (m : String) (fd : Nat)
    (h : isPipeEnd (lookup (dup2 (forked q) a STDOUT_FILENO m).fds fd) = true) :
    fd = STDIN_FILENO ∨ fd = STDOUT_FILENO ∨ isPipeEnd (lookup q.fds fd) = true := by
  rcases isPipeEnd_dup2 _ _ _ _ _ h with h1 | h1
  · exact Or.inr (Or.inl h1)
  · exact Or.inr (Or.inr h1)

theorem dup_in (q : Proc) (a : Nat) (m : String) (fd : Nat)
    (h : isPipeEnd (lookup (dup2 (forked q) a STDIN_FILENO m).fds fd) = true) :
    fd = STDIN_FILENO ∨ fd = STDOUT_FILENO ∨ isPipeEnd (lookup q.fds fd) = true := by
  rcases isPipeEnd_dup2 _ _ _ _ _ h with h1 | h1
  · exact Or.inl h1
  · exact Or.inr (Or.inr h1)

theorem dup_in_out (q : Proc) (a b : Nat) (m n : String) (fd : Nat)
    (h : isPipeEnd (lookup
      (dup2 (dup2 (forked q) a STDIN_FILENO m) b STDOUT_FILENO n).fds fd) = true) :
    fd = STDIN_FILENO ∨ fd = STDOUT_FILENO ∨ isPipeEnd (lookup q.fds fd) = true := by
  rcases isPipeEnd_dup2 _ _ _ _ _ h with h1 | h1
  · exact Or.inr (Or.inl h1)
  · exact dup_in q a m fd h1

theorem checkEnv_printenv_fds (e : Env) (c : Proc) (p1 p2 : PipeFds) :
    (checkEnv_printenv e c p1 p2).proc.fds =
      (closeAll (dup2 c p1.wr STDOUT_FILENO "Could not dup2()")
        [p1.rd, p1.wr, p2.rd, p2.wr]).fds := by
  simp [checkEnv_printenv, execOrExit_fds]

theorem checkEnv_sort_fds (e : Env) (c : Proc) (p1 p2 : PipeFds) :
    (checkEnv_sort e c p1 p2).proc.fds =
      (closeAll (dup2 (dup2 c p1.rd STDIN_FILENO "Could not dup2()") p2.wr STDOUT_FILENO
        "Could not dup2()") [p1.rd, p1.wr, p2.rd, p2.wr]).fds := by
  simp [checkEnv_sort, execOrExit_fds]

theorem checkEnv_pager_fds (e : Env) (c : Proc) (p1 p2 : PipeFds) :
    (checkEnv_pager e c p1 p2).proc.fds =
      (closeAll (dup2 c p2.rd STDIN_FILENO "Could not dup2()")
        [p1.rd, p1.wr, p2.rd, p2.wr]).fds := by
  simp [checkEnv_pager, checkEnv_pagerExec_fds]

theorem checkEnv_PipesClosed (e : Env) (fork : Nat → Bool) (t0 : List (Option Nat))
    (err : List String) : PipesClosed (checkEnv e fork ⟨startTable t0, err⟩) := by
  have hP : ∀ fd, isPipeEnd (lookup (pipe 2 (pipe 1 ⟨startTable t0, err⟩).2).2.fds fd) = true →
      fd ∈ [(pipe 1 ⟨startTable t0, err⟩).1.rd, (pipe 1 ⟨startTable t0, err⟩).1.wr,
        (pipe 2 (pipe 1 ⟨startTable t0, err⟩).2).1.rd,
        (pipe 2 (pipe 1 ⟨startTable t0, err⟩).2).1.wr] := by
    intro fd h
    have h1 := pipe_ends 2 _ _ (pipe_ends 1 ⟨startTable t0, err⟩ [] (fun fd h => by
      simp [startTable_noPipeEnd] at h)) fd h
    simp only [List.mem_cons, List.mem_nil_iff, or_false] at h1 ⊢
    tauto
  refine ⟨?_, ?_, ?_⟩
  · intro c hc
    simp only [checkEnv, List.mem_cons, List.mem_nil_iff, or_false] at hc
    rcases hc with hc | hc | hc
    · by_cases hf : fork 0 = true
      · simp only [hf, if_true, Option.some.injEq] at hc
        subst hc
        rw [checkEnv_printenv_fds]
        exact ⟨allClosed_closeAll _ _, stage_onlyStd _ _ hP _ (dup_out _ _ _)⟩
      · simp [hf] at hc
    · by_cases hf : fork 1 = true
      · simp only [hf, if_true, Option.some.injEq] at hc
        subst hc
        rw [checkEnv_sort_fds]
        refine ⟨allClosed_closeAll _ _, stage_onlyStd _ _ ?_ _ (dup_in_out _ _ _ _ _)⟩
        simpa [afterFork_fds] using hP
      · simp [hf] at hc
    · by_cases hf : fork 2 = true
      · simp only [hf, if_true, Option.some.injEq] at hc
        subst hc
        rw [checkEnv_pager_fds]
        refine ⟨allClosed_closeAll _ _, stage_onlyStd _ _ ?_ _ (dup_in _ _ _)⟩
        simpa [afterFork_fds] using hP
      · simp [hf] at hc
  · exact allClosed_closeAll _ _
  · intro fd
    cases h : isPipeEnd (lookup (checkEnv e fork ⟨startTable t0, err⟩).parent.fds fd) with
    | false => rfl
    | true =>
      obtain ⟨hn, h1⟩ := isPipeEnd_closeAll _ _ _ h
      simp only [afterFork_fds] at h1
      exact absurd (hP fd h1) hn

theorem checkEnvArg_printenv_fds (e : Env) (c : Proc) (b : Buff) (p1 p2 p3 : PipeFds) :
    (checkEnvArg_printenv e c b p1 p2 p3).proc.fds =
      (closeAll (dup2 c p1.wr STDOUT_FILENO "Could not dup2()")
        [p1.rd, p1.wr, p2.rd, p2.wr, p3.rd, p3.wr]).fds := by
  simp [checkEnvArg_printenv, execOrExit_fds]

theorem checkEnvArg_grep_fds (e : Env) (c : Proc) (b : Buff) (p1 p2 p3 : PipeFds) :
    (checkEnvArg_grep e c b p1 p2 p3).proc.fds =
      (closeAll (dup2 (dup2 c p1.rd STDIN_FILENO "Could not dup2()") p2.wr STDOUT_FILENO
        "Could not dup2()") [p1.rd, p1.wr, p2.rd, p2.wr, p3.rd, p3.wr]).fds := by
  unfold checkEnvArg_grep
  simp only
  split <;> rfl

theorem checkEnvArg_sort_fds (e : Env) (c : Proc) (b : Buff) (p1 p2 p3 : PipeFds) :
    (checkEnvArg_sort e c b p1 p2 p3).proc.fds =
      (closeAll (dup2 (dup2 c p2.rd STDIN_FILENO "Could not dup2()") p3.wr STDOUT_FILENO
        "pipe3 write") [p1.rd, p1.wr, p2.rd, p2.wr, p3.rd, p3.wr]).fds := by
  simp [checkEnvArg_sort, execOrExit_fds]

theorem checkEnvArg_pager_fds (e : Env) (c : Proc) (b : Buff) (p1 p2 p3 : PipeFds) :
    (checkEnvArg_pager e c b p1 p2 p3).proc.fds =
      (closeAll (dup2 c p3.rd STDIN_FILENO "Could not dup2()")
        [p1.rd, p1.wr, p2.rd, p2.wr, p3.rd, p3.wr]).fds := by
  simp [checkEnvArg_pager, checkEnvArg_pagerExec_fds]

theorem checkEnvArg_PipesClosed (e : Env) (fork : Nat → Bool) (buff : Buff)
    (t0 : List (Option Nat)) (err : List String) :
    PipesClosed (checkEnvArg e fork buff ⟨startTable t0, err⟩) := by
  have hP : ∀ fd, isPipeEnd (lookup
        (pipe 3 (pipe 2 (pipe 1 ⟨startTable t0, err⟩).2).2).2.fds fd) = true →
      fd ∈ [(pipe 1 ⟨startTable t0, err⟩).1.rd, (pipe 1 ⟨startTable t0, err⟩).1.wr,
        (pipe 2 (pipe 1 ⟨startTable t0, err⟩).2).1.rd,
        (pipe 2 (pipe 1 ⟨startTable t0, err⟩).2).1.wr,
        (pipe 3 (pipe 2 (pipe 1 ⟨startTable t0, err⟩).2).2).1.rd,
        (pipe 3 (pipe 2 (pipe 1 ⟨startTable t0, err⟩).2).2).1.wr] := by
    intro fd h
    have h1 := pipe_ends 3 _ _ (pipe_ends 2 _ _ (pipe_ends 1 ⟨startTable t0, err⟩ []
      (fun fd h => by simp [startTable_noPipeEnd] at h))) fd h
    simp only [List.mem_cons, List.mem_nil_iff, or_false] at h1 ⊢
    tauto
  refine ⟨?_, ?_, ?_⟩
  · intro c hc
    simp only [checkEnvArg, List.mem_cons, List.mem_nil_iff, or_false] at hc
    rcases hc with hc | hc | hc | hc
    · by_cases hf : fork 0 = true
      · simp only [hf, if_true, Option.some.injEq] at hc
        subst hc
        rw [checkEnvArg_printenv_fds]
        exact ⟨allClosed_closeAll _ _, stage_onlyStd _ _ hP _ (dup_out _ _ _)⟩
      · simp [hf] at hc
    · by_cases hf : fork 1 = true
      · simp only [hf, if_true, Option.some.injEq] at hc
        subst hc
        rw [checkEnvArg_grep_fds]
        refine ⟨allClosed_closeAll _ _, stage_onlyStd _ _ ?_ _ (dup_in_out _ _ _ _ _)⟩
        simpa [afterFork_fds] using hP
      · simp [hf] at hc
    · by_cases hf : fork 2 = true
      · simp only [hf, if_true, Option.some.injEq] at hc
        subst hc
        rw [checkEnvArg_sort_fds]
        refine ⟨allClosed_closeAll _ _, stage_onlyStd _ _ ?_ _ (dup_in_out _ _ _ _ _)⟩
        simpa [afterFork_fds] using hP
      · simp [hf] at hc
    · by_cases hf : fork 3 = true
      · simp only [hf, if_true, Option.some.injEq] at hc
        subst hc
        rw [checkEnvArg_pager_fds]
        refine ⟨allClosed_closeAll _ _, stage_onlyStd _ _ ?_ _ (dup_in _ _ _)⟩
        simpa [afterFork_fds] using hP
      · simp [hf] at hc
  · exact allClosed_closeAll _ _
  · intro fd
    cases h : isPipeEnd
        (lookup (checkEnvArg e fork buff ⟨startTable t0, err⟩).parent.fds fd) with
    | false => rfl
    | true =>
      obtain ⟨hn, h1⟩ := isPipeEnd_closeAll _ _ _ h
      simp only [afterFork_fds] at h1
      exact absurd (hP fd h1) hn

/-! ## The descriptors of the pipes are pairwise different -/

/-- Two descriptors that refer to different things are different descriptors. -/
theorem ne_of_vals (t : FdTable) (a b : Nat) (x y : FileRef) (ha : lookup t a = some x)
    (hb : lookup t b = some y) (hxy : x ≠ y) : a ≠ b := by
  intro hab
  rw [hab, hb] at ha
  exact hxy (Option.some.inj ha).symm

/-- What the table holds after two `pipe` calls. -/
theorem two_pipes (p0 : Proc) :
    lookup (pipe 2 (pipe 1 p0).2).2.fds (pipe 1 p0).1.rd = some (.pipeRead 1) ∧
    lookup (pipe 2 (pipe 1 p0).2).2.fds (pipe 1 p0).1.wr = some (.pipeWrite 1) ∧
    lookup (pipe 2 (pipe 1 p0).2).2.fds (pipe 2 (pipe 1 p0).2).1.rd = some (.pipeRead 2) ∧
    lookup (pipe 2 (pipe 1 p0).2).2.fds (pipe 2 (pipe 1 p0).2).1.wr = some (.pipeWrite 2) := by
  refine ⟨?_, ?_, pipe_rd_val _ _, pipe_wr_val _ _⟩
  · rw [pipe_keeps 2 _ _ (by simp [pipe_rd_val]), pipe_rd_val]
  · rw [pipe_keeps 2 _ _ (by simp [pipe_wr_val]), pipe_wr_val]

/-- What the table holds after three `pipe` calls. -/
theorem three_pipes (p0 : Proc) :
    lookup (pipe 3 (pipe 2 (pipe 1 p0).2).2).2.fds (pipe 1 p0).1.rd = some (.pipeRead 1) ∧
    lookup (pipe 3 (pipe 2 (pipe 1 p0).2).2).2.fds (pipe 1 p0).1.wr = some (.pipeWrite 1) ∧
    lookup (pipe 3 (pipe 2 (pipe 1 p0).2).2).2.fds (pipe 2 (pipe 1 p0).2).1.rd
      = some (.pipeRead 2) ∧
    lookup (pipe 3 (pipe 2 (pipe 1 p0).2).2).2.fds (pipe 2 (pipe 1 p0).2).1.wr
      = some (.pipeWrite 2) ∧
    lookup (pipe 3 (pipe 2 (pipe 1 p0).2).2).2.fds (pipe 3 (pipe 2 (pipe 1 p0).2).2).1.rd
      = some (.pipeRead 3) ∧
    lookup (pipe 3 (pipe 2 (pipe 1 p0).2).2).2.fds (pipe 3 (pipe 2 (pipe 1 p0).2).2).1.wr
      = some (.pipeWrite 3) := by
  obtain ⟨h1, h2, h3, h4⟩ := two_pipes p0
  refine ⟨?_, ?_, ?_, ?_, pipe_rd_val _ _, pipe_wr_val _ _⟩
  · rw [pipe_keeps 3 _ _ (by simp [h1]), h1]
  · rw [pipe_keeps 3 _ _ (by simp [h2]), h2]
  · rw [pipe_keeps 3 _ _ (by simp [h3]), h3]
  · rw [pipe_keeps 3 _ _ (by simp [h4]), h4]

theorem checkEnv_descriptors_nodup (e : Env) (fork : Nat → Bool) (p0 : Proc) :
    (pipeDescriptors (checkEnv e fork p0).pipes).Nodup := by
  obtain ⟨h1, h2, h3, h4⟩ := two_pipes p0
  have n12 := ne_of_vals _ _ _ _ _ h1 h2 (by decide)
  have n13 := ne_of_vals _ _ _ _ _ h1 h3 (by decide)
  have n14 := ne_of_vals _ _ _ _ _ h1 h4 (by decide)
  have n23 := ne_of_vals _ _ _ _ _ h2 h3 (by decide)
  have n24 := ne_of_vals _ _ _ _ _ h2 h4 (by decide)
  have n34 := ne_of_vals _ _ _ _ _ h3 h4 (by decide)
  simp [checkEnv, pipeDescriptors, n12, n13, n14, n23, n24, n34]

theorem checkEnvArg_descriptors_nodup (e : Env) (fork : Nat → Bool) (buff : Buff) (p0 : Proc) :
    (pipeDescriptors (checkEnvArg e fork buff p0).pipes).Nodup := by
  obtain ⟨h1, h2, h3, h4, h5, h6⟩ := three_pipes p0
  have n12 := ne_of_vals _ _ _ _ _ h1 h2 (by decide)
  have n13 := ne_of_vals _ _ _ _ _ h1 h3 (by decide)
  have n14 := ne_of_vals _ _ _ _ _ h1 h4 (by decide)
  have n15 := ne_of_vals _ _ _ _ _ h1 h5 (by decide)
  have n16 := ne_of_vals _ _ _ _ _ h1 h6 (by decide)
  have n23 := ne_of_vals _ _ _ _ _ h2 h3 (by decide)
  have n24 := ne_of_vals _ _ _ _ _ h2 h4 (by decide)
  have n25 := ne_of_vals _ _ _ _ _ h2 h5 (by decide)
  have n26 := ne_of_vals _ _ _ _ _ h2 h6 (by decide)
  have n34 := ne_of_vals _ _ _ _ _ h3 h4 (by decide)
  have n35 := ne_of_vals _ _ _ _ _ h3 h5 (by decide)
  have n36 := ne_of_vals _ _ _ _ _ h3 h6 (by decide)
  have n45 := ne_of_vals _ _ _ _ _ h4 h5 (by decide)
  have n46 := ne_of_vals _ _ _ _ _ h4 h6 (by decide)
  have n56 := ne_of_vals _ _ _ _ _ h5 h6 (by decide)
  simp [checkEnvArg, pipeDescriptors, n12, n13, n14, n15, n16, n23, n24, n25, n26, n34, n35,
    n36, n45, n46, n56]

/-! ## C5: every descriptor returned by `pipe()` gets closed -/

/-- C5: in `checkEnv` (two pipes, four descriptors) and in `checkEnvArg` (three
pipes, six descriptors), whatever table the shell enters with and whichever
forks succeed: the descriptors returned by `pipe()` are pairwise different,
there is one child per successful fork, in every child all of these
descriptors are closed when it calls `exec`, in the parent all of them are
closed after its last fork and before its first `wait`, and the only ends of
pipes left are the standard input and standard output of the children. -/
theorem pipe_descriptors_all_closed (e : Env) (fork : Nat → Bool) (buff : Buff)
    (t0 : List (Option Nat)) (err : List String) :
    ((pipeDescriptors (checkEnv e fork ⟨startTable t0, err⟩).pipes).length = 4 ∧
      (pipeDescriptors (checkEnv e fork ⟨startTable t0, err⟩).pipes).Nodup ∧
      (checkEnv e fork ⟨startTable t0, err⟩).children.map Option.isSome
        = [fork 0, fork 1, fork 2] ∧
      PipesClosed (checkEnv e fork ⟨startTable t0, err⟩)) ∧
    ((pipeDescriptors (checkEnvArg e fork buff ⟨startTable t0, err⟩).pipes).length = 6 ∧
      (pipeDescriptors (checkEnvArg e fork buff ⟨startTable t0, err⟩).pipes).Nodup ∧
      (checkEnvArg e fork buff ⟨startTable t0, err⟩).children.map Option.isSome
        = [fork 0, fork 1, fork 2, fork 3] ∧
      PipesClosed (checkEnvArg e fork buff ⟨startTable t0, err⟩)) := by
  refine ⟨⟨rfl, checkEnv_descriptors_nodup _ _ _, ?_, checkEnv_PipesClosed _ _ _ _⟩,
    ⟨rfl, checkEnvArg_descriptors_nodup _ _ _ _, ?_, checkEnvArg_PipesClosed _ _ _ _ _⟩⟩
  · simp only [checkEnv, List.map_cons, List.map_nil]
    cases fork 0 <;> cases fork 1 <;> cases fork 2 <;> rfl
  · simp only [checkEnvArg, List.map_cons, List.map_nil]
    cases fork 0 <;> cases fork 1 <;> cases fork 2 <;> cases fork 3 <;> rfl

/-! ## C6: the wiring of the chains -/

/-- A descriptor that is open is none of the two a `pipe` call returns, and
stays what it is. -/
theorem pipe_avoids (k : Nat) (p : Proc) (fd : Nat) (h : lookup p.fds fd ≠ none) :
    (pipe k p).1.rd ≠ fd ∧ (pipe k p).1.wr ≠ fd ∧
      lookup (pipe k p).2.fds fd = lookup p.fds fd :=
  ⟨fun hc => h (hc ▸ pipe_rd_free k p), fun hc => h (hc ▸ (pipe_wr_spec k p).2),
    pipe_keeps k p fd h⟩

theorem two_pipes_std (p0 : Proc) (fd : Nat) (h : lookup p0.fds fd ≠ none) :
    (pipe 1 p0).1.rd ≠ fd ∧ (pipe 1 p0).1.wr ≠ fd ∧
    (pipe 2 (pipe 1 p0).2).1.rd ≠ fd ∧ (pipe 2 (pipe 1 p0).2).1.wr ≠ fd ∧
    lookup (pipe 2 (pipe 1 p0).2).2.fds fd = lookup p0.fds fd := by
  obtain ⟨a1, a2, a3⟩ := pipe_avoids 1 p0 fd h
  obtain ⟨b1, b2, b3⟩ := pipe_avoids 2 (pipe 1 p0).2 fd (a3 ▸ h)
  exact ⟨a1, a2, b1, b2, b3.trans a3⟩

theorem three_pipes_std (p0 : Proc) (fd : Nat) (h : lookup p0.fds fd ≠ none) :
    (pipe 1 p0).1.rd ≠ fd ∧ (pipe 1 p0).1.wr ≠ fd ∧
    (pipe 2 (pipe 1 p0).2).1.rd ≠ fd ∧ (pipe 2 (pipe 1 p0).2).1.wr ≠ fd ∧
    (pipe 3 (pipe 2 (pipe 1 p0).2).2).1.rd ≠ fd ∧
    (pipe 3 (pipe 2 (pipe 1 p0).2).2).1.wr ≠ fd ∧
    lookup (pipe 3 (pipe 2 (pipe 1 p0).2).2).2.fds fd = lookup p0.fds fd := by
  obtain ⟨a1, a2, a3, a4, a5⟩ := two_pipes_std p0 fd h
  obtain ⟨b1, b2, b3⟩ := pipe_avoids 3 (pipe 2 (pipe 1 p0).2).2 fd (a5 ▸ h)
  exact ⟨a1, a2, a3, a4, b1, b2, b3.trans a5⟩

theorem execOrExit_tried (e : Env) (p : Proc) (f : List String) (file : String) :
    (execOrExit e p f file).tried = [(file, [file])] := by
  unfold execOrExit
  split <;> rfl

theorem checkEnv_pagerExec_first (e : Env) (p : Proc) :
    (checkEnv_pagerExec e p).tried.head? = some (firstPager e, [firstPager e]) := by
  unfold checkEnv_pagerExec firstPager
  cases h : e.getenv "PAGER" with
  | none =>
    simp only [lessOrMore, Option.getD_none]
    split
    · rfl
    · split <;> rfl
  | some pg =>
    simp only [Option.getD_some]
    split <;> rfl

theorem checkEnvArg_pagerExec_first (e : Env) (p : Proc) (f : List String) :
    (checkEnvArg_pagerExec e p f).tried.head? = some (firstPager e, [firstPager e]) := by
  unfold checkEnvArg_pagerExec firstPager
  cases h : e.getenv "PAGER" with
  | none =>
    simp only [lessOrMore, Option.getD_none]
    split
    · rfl
    · split <;> rfl
  | some pg =>
    simp only [Option.getD_some, lessOrMore]
    split
    · rfl
    · split
      · rfl
      · split <;> rfl

theorem checkEnv_chainWired (e : Env) (fork : Nat → Bool) (p0 : Proc)
    (h0 : lookup p0.fds STDIN_FILENO ≠ none) (h1 : lookup p0.fds STDOUT_FILENO ≠ none) :
    chainWired p0.fds fork
      [("printenv", ["printenv"]), ("sort", ["sort"]), (firstPager e, [firstPager e])]
      (checkEnv e fork p0) := by
  obtain ⟨v1, v2, v3, v4⟩ := two_pipes p0
  obtain ⟨a1, a2, a3, a4, a5⟩ := two_pipes_std p0 STDIN_FILENO h0
  obtain ⟨b1, b2, b3, b4, b5⟩ := two_pipes_std p0 STDOUT_FILENO h1
  have h01 : STDIN_FILENO ≠ STDOUT_FILENO := by decide
  refine ⟨rfl, ?_, ?_, rfl, ?_⟩
  · have hr : List.map fork (List.range 3) = [fork 0, fork 1, fork 2] := rfl
    simp only [checkEnv, List.map_cons, List.map_nil, List.length_cons, List.length_nil]
    rw [hr]
    cases fork 0 <;> cases fork 1 <;> cases fork 2 <;> rfl
  · intro k c hc
    match k with
    | 0 =>
      by_cases hf : fork 0 = true
      · simp only [checkEnv, hf, if_true, List.getElem?_cons_zero, Option.some.injEq] at hc
        subst hc
        refine ⟨⟨?_, ?_⟩, ?_⟩
        · rw [checkEnv_printenv_fds]
          simp [lookup_closeAll, lookup_dup2, forked, Ne.symm a1, Ne.symm a2, Ne.symm a3,
            Ne.symm a4, h01, a5]
        · rw [checkEnv_printenv_fds]
          simp [lookup_closeAll, lookup_dup2, forked, Ne.symm b1, Ne.symm b2, Ne.symm b3,
            Ne.symm b4, v2]
        · simp [checkEnv_printenv, execOrExit_tried]
      · simp [checkEnv, hf] at hc
    | 1 =>
      by_cases hf : fork 1 = true
      · simp only [checkEnv, hf, if_true, List.getElem?_cons_succ, List.getElem?_cons_zero,
          Option.some.injEq] at hc
        subst hc
        refine ⟨⟨?_, ?_⟩, ?_⟩
        · rw [checkEnv_sort_fds]
          simp [lookup_closeAll, lookup_dup2, forked, afterFork_fds, Ne.symm a1, Ne.symm a2,
            Ne.symm a3, Ne.symm a4, h01, v1]
        · rw [checkEnv_sort_fds]
          simp [lookup_closeAll, lookup_dup2, forked, afterFork_fds, Ne.symm b1, Ne.symm b2,
            Ne.symm b3, Ne.symm b4, a4, v1, v4]
        · simp [checkEnv_sort, execOrExit_tried]
      · simp [checkEnv, hf] at hc
    | 2 =>
      by_cases hf : fork 2 = true
      · simp only [checkEnv, hf, if_true, List.getElem?_cons_succ, List.getElem?_cons_zero,
          Option.some.injEq] at hc
        subst hc
        refine ⟨⟨?_, ?_⟩, ?_⟩
        · rw [checkEnv_pager_fds]
          simp [lookup_closeAll, lookup_dup2, forked, afterFork_fds, Ne.symm a1, Ne.symm a2,
            Ne.symm a3, Ne.symm a4, v3]
        · rw [checkEnv_pager_fds]
          simp [lookup_closeAll, lookup_dup2, forked, afterFork_fds, Ne.symm b1, Ne.symm b2,
            Ne.symm b3, Ne.symm b4, Ne.symm h01, b5]
        · simp [checkEnv_pager, checkEnv_pagerExec_first]
      · simp [checkEnv, hf] at hc
    | n + 3 => simp [checkEnv] at hc
  · intro t ht k pf hk
    have ht2 : t = (pipe 2 (pipe 1 p0).2).2.fds := by
      simp only [checkEnv, afterFork_fds, List.mem_cons, List.mem_nil_iff, or_false,
        or_self] at ht
      exact ht
    subst ht2
    match k with
    | 0 =>
      simp only [checkEnv, List.getElem?_cons_zero, Option.some.injEq] at hk
      subst hk
      exact ⟨v1, v2⟩
    | 1 =>
      simp only [checkEnv, List.getElem?_cons_succ, List.getElem?_cons_zero,
        Option.some.injEq] at hk
      subst hk
      exact ⟨v3, v4⟩
    | n + 2 => simp [checkEnv] at hk
theorem checkEnvArg_chainWired (e : Env) (fork : Nat → Bool) (cmd : String) (rest : Buff)
    (p0 : Proc)
    (h0 : lookup p0.fds STDIN_FILENO ≠ none) (h1 : lookup p0.fds STDOUT_FILENO ≠ none) :
    chainWired p0.fds fork
      [("printenv", ["printenv"]), ("grep", "grep" :: argvOf rest), ("sort", ["sort"]),
        (firstPager e, [firstPager e])]
      (checkEnvArg e fork (some cmd :: rest) p0) := by
  obtain ⟨v1, v2, v3, v4, v5, v6⟩ := three_pipes p0
  obtain ⟨a1, a2, a3, a4, a5, a6, a7⟩ := three_pipes_std p0 STDIN_FILENO h0
  obtain ⟨b1, b2, b3, b4, b5, b6, b7⟩ := three_pipes_std p0 STDOUT_FILENO h1
  have h01 : STDIN_FILENO ≠ STDOUT_FILENO := by decide
  refine ⟨rfl, ?_, ?_, rfl, ?_⟩
  · have hr : List.map fork (List.range 4) = [fork 0, fork 1, fork 2, fork 3] := rfl
    simp only [checkEnvArg, List.map_cons, List.map_nil, List.length_cons, List.length_nil]
    rw [hr]
    cases fork 0 <;> cases fork 1 <;> cases fork 2 <;> cases fork 3 <;> rfl
  · intro k c hc
    match k with
    | 0 =>
      by_cases hf : fork 0 = true
      · simp only [checkEnvArg, hf, if_true, List.getElem?_cons_zero, Option.some.injEq] at hc
        subst hc
        refine ⟨⟨?_, ?_⟩, ?_⟩
        · rw [checkEnvArg_printenv_fds]
          simp [lookup_closeAll, lookup_dup2, forked, Ne.symm a1, Ne.symm a2, Ne.symm a3,
            Ne.symm a4, Ne.symm a5, Ne.symm a6, h01, a7]
        · rw [checkEnvArg_printenv_fds]
          simp [lookup_closeAll, lookup_dup2, forked, Ne.symm b1, Ne.symm b2, Ne.symm b3,
            Ne.symm b4, Ne.symm b5, Ne.symm b6, v2]
        · simp [checkEnvArg_printenv, execOrExit_tried]
      · simp [checkEnvArg, hf] at hc
    | 1 =>
      by_cases hf : fork 1 = true
      · simp only [checkEnvArg, hf, if_true, List.getElem?_cons_succ, List.getElem?_cons_zero,
          Option.some.injEq] at hc
        subst hc
        refine ⟨⟨?_, ?_⟩, ?_⟩
        · rw [checkEnvArg_grep_fds]
          simp [lookup_closeAll, lookup_dup2, forked, afterFork_fds, Ne.symm a1, Ne.symm a2,
            Ne.symm a3, Ne.symm a4, Ne.symm a5, Ne.symm a6, h01, v1]
        · rw [checkEnvArg_grep_fds]
          simp [lookup_closeAll, lookup_dup2, forked, afterFork_fds, Ne.symm b1, Ne.symm b2,
            Ne.symm b3, Ne.symm b4, Ne.symm b5, Ne.symm b6, a4, v1, v4]
        · simp only [checkEnvArg_grep, writeGrep, argvOf]
          split <;> rfl
      · simp [checkEnvArg, hf] at hc
    | 2 =>
      by_cases hf : fork 2 = true
      · simp only [checkEnvArg, hf, if_true, List.getElem?_cons_succ, List.getElem?_cons_zero,
          Option.some.injEq] at hc
        subst hc
        refine ⟨⟨?_, ?_⟩, ?_⟩
        · rw [checkEnvArg_sort_fds]
          simp [lookup_closeAll, lookup_dup2, forked, afterFork_fds, Ne.symm a1, Ne.symm a2,
            Ne.symm a3, Ne.symm a4, Ne.symm a5, Ne.symm a6, h01, v3]
        · rw [checkEnvArg_sort_fds]
          simp [lookup_closeAll, lookup_dup2, forked, afterFork_fds, Ne.symm b1, Ne.symm b2,
            Ne.symm b3, Ne.symm b4, Ne.symm b5, Ne.symm b6, a6, v3, v6]
        · simp [checkEnvArg_sort, execOrExit_tried]
      · simp [checkEnvArg, hf] at hc
    | 3 =>
      by_cases hf : fork 3 = true
      · simp only [checkEnvArg, hf, if_true, List.getElem?_cons_succ, List.getElem?_cons_zero,
          Option.some.injEq] at hc
        subst hc
        refine ⟨⟨?_, ?_⟩, ?_⟩
        · rw [checkEnvArg_pager_fds]
          simp [lookup_closeAll, lookup_dup2, forked, afterFork_fds, Ne.symm a1, Ne.symm a2,
            Ne.symm a3, Ne.symm a4, Ne.symm a5, Ne.symm a6, v5]
        · rw [checkEnvArg_pager_fds]
          simp [lookup_closeAll, lookup_dup2, forked, afterFork_fds, Ne.symm b1, Ne.symm b2,
            Ne.symm b3, Ne.symm b4, Ne.symm b5, Ne.symm b6, Ne.symm h01, b7]
        · simp [checkEnvArg_pager, checkEnvArg_pagerExec_first]
      · simp [checkEnvArg, hf] at hc
    | n + 4 => simp [checkEnvArg] at hc
  · intro t ht k pf hk
    have ht2 : t = (pipe 3 (pipe 2 (pipe 1 p0).2).2).2.fds := by
      simp only [checkEnvArg, afterFork_fds, List.mem_cons, List.mem_nil_iff, or_false,
        or_self] at ht
      exact ht
    subst ht2
    match k with
    | 0 =>
      simp only [checkEnvArg, List.getElem?_cons_zero, Option.some.injEq] at hk
      subst hk
      exact ⟨v1, v2⟩
    | 1 =>
      simp only [checkEnvArg, List.getElem?_cons_succ, List.getElem?_cons_zero,
        Option.some.injEq] at hk
      subst hk
      exact ⟨v3, v4⟩
    | 2 =>
      simp only [checkEnvArg, List.getElem?_cons_succ, List.getElem?_cons_zero,
        Option.some.injEq] at hk
      subst hk
      exact ⟨v5, v6⟩
    | n + 3 => simp [checkEnvArg] at hk

/-- C6, as amended: when descriptors 0 and 1 are open in the shell, `checkEnv`
is the chain `printenv | sort | pager` and `checkEnvArg` is the chain
`printenv | grep <buff[1..]> | sort | pager`: stage `k` reads from pipe `k - 1`
(the first from the standard input of the shell) and writes to pipe `k` (the
last to the standard output of the shell), and at every fork all pipes exist. -/
theorem pipelines_are_linear_chains (e : Env) (fork : Nat → Bool) (cmd : String)
    (rest : Buff) (p0 : Proc)
    (h0 : lookup p0.fds STDIN_FILENO ≠ none) (h1 : lookup p0.fds STDOUT_FILENO ≠ none) :
    chainWired p0.fds fork
      [("printenv", ["printenv"]), ("sort", ["sort"]), (firstPager e, [firstPager e])]
      (checkEnv e fork p0) ∧
    chainWired p0.fds fork
      [("printenv", ["printenv"]), ("grep", "grep" :: argvOf rest), ("sort", ["sort"]),
        (firstPager e, [firstPager e])]
      (checkEnvArg e fork (some cmd :: rest) p0) :=
  ⟨checkEnv_chainWired e fork p0 h0 h1, checkEnvArg_chainWired e fork cmd rest p0 h0 h1⟩

/-- C6 at a shell started from a terminal, with `PAGER` not set and the
command line `checkEnv PATH`. -/
theorem pipelines_are_linear_chains_witness :
    (lookup stdProc.fds STDIN_FILENO ≠ none ∧ lookup stdProc.fds STDOUT_FILENO ≠ none) ∧
    chainWired stdProc.fds (fun _ => true)
      [("printenv", ["printenv"]), ("sort", ["sort"]),
        (firstPager plainEnv, [firstPager plainEnv])]
      (checkEnv plainEnv (fun _ => true) stdProc) ∧
    chainWired stdProc.fds (fun _ => true)
      [("printenv", ["printenv"]), ("grep", "grep" :: argvOf [some "PATH", none]),
        ("sort", ["sort"]), (firstPager plainEnv, [firstPager plainEnv])]
      (checkEnvArg plainEnv (fun _ => true) (some "checkEnv" :: [some "PATH", none]) stdProc) :=
  ⟨⟨by decide, by decide⟩,
    pipelines_are_linear_chains plainEnv (fun _ => true) "checkEnv" [some "PATH", none] stdProc
      (by decide) (by decide)⟩

/-- C6 as stated fails when the shell runs with standard output closed: the
first `pipe()` of `checkEnv` then returns descriptor 1 as its read end, and the
`close` calls of the first stage close what `dup2` has just put there, so that
`printenv` runs with standard output closed, not on the write end of pipe 1. -/
theorem chain_broken_when_stdout_closed :
    (checkEnv plainEnv (fun _ => true) noStdoutProc).pipes = [⟨1, 3⟩, ⟨4, 5⟩] ∧
    (∃ c, (checkEnv plainEnv (fun _ => true) noStdoutProc).children[0]? = some (some c) ∧
      c.fin = .execd "printenv" ["printenv"] ∧
      lookup c.proc.fds STDOUT_FILENO = none) ∧
    ¬ chainWired noStdoutProc.fds (fun _ => true)
      [("printenv", ["printenv"]), ("sort", ["sort"]),
        (firstPager plainEnv, [firstPager plainEnv])]
      (checkEnv plainEnv (fun _ => true) noStdoutProc) := by
  refine ⟨by decide, ⟨_, rfl, by decide, by decide⟩, ?_⟩
  intro h
  have h2 := (h.2.2.1 0 _ rfl).1.2
  revert h2
  decide

/-! ## C1: the pager stage -/

/-- The pager stage of `checkEnvArg` tries `PAGER` (when set), then `less`,
then `more`; it ends in the first of them that can be executed, and when none
can it prints the diagnostic and exits with status 1. It never returns. -/
theorem checkEnvArg_pager_falls_back (e : Env) (p : Proc) (f : List String) :
    (checkEnvArg_pagerExec e p f).fin ≠ .returned ∧
    (∀ pg, e.getenv "PAGER" = some pg → e.canExec pg = true →
      (checkEnvArg_pagerExec e p f).fin = .execd pg [pg]) ∧
    ((∀ pg, e.getenv "PAGER" = some pg → e.canExec pg = false) →
      (e.canExec "less" = true →
        (checkEnvArg_pagerExec e p f).fin = .execd "less" ["less"]) ∧
      (e.canExec "less" = false → e.canExec "more" = true →
        (checkEnvArg_pagerExec e p f).fin = .execd "more" ["more"]) ∧
      (e.canExec "less" = false → e.canExec "more" = false →
        (checkEnvArg_pagerExec e p f).fin = .exited 1 ∧
        (checkEnvArg_pagerExec e p f).proc.err
          = p.err ++ ["Could not find less/more/PAGER"])) := by
  unfold checkEnvArg_pagerExec lessOrMore
  cases hp : e.getenv "PAGER" with
  | none =>
    cases hl : e.canExec "less" <;> cases hm : e.canExec "more" <;> simp
  | some pg =>
    cases hx : e.canExec pg <;> cases hl : e.canExec "less" <;>
      cases hm : e.canExec "more" <;> simp [hx]

/-- C1, `checkEnv`: when `PAGER` names a program that cannot be executed, the
pager child of `checkEnv` tries nothing else, prints nothing and does not
exit: it returns from `checkEnv` into the loop of `main`. -/
theorem checkEnv_pager_returns (e : Env) (fork : Nat → Bool) (p0 : Proc) (pg : String)
    (hp : e.getenv "PAGER" = some pg) (hx : e.canExec pg = false) (hf : fork 2 = true) :
    (∀ p, checkEnv_pagerExec e p = ⟨p, [], [(pg, [pg])], .returned⟩) ∧
    ∃ c, (checkEnv e fork p0).children[2]? = some (some c) ∧
      c.fin = .returned ∧ c.tried = [(pg, [pg])] := by
  have h : ∀ p, checkEnv_pagerExec e p = ⟨p, [], [(pg, [pg])], .returned⟩ := by
    intro p
    simp [checkEnv_pagerExec, hp, hx]
  refine ⟨h, _, by simp [checkEnv, hf]; rfl, ?_, ?_⟩
  · simp [checkEnv_pager, h]
  · simp [checkEnv_pager, h]

/-- C1 at a shell started from a terminal with `PAGER=nopager`, a program that
cannot be executed, while `less` and `more` can: the third child of `checkEnv`
returns. -/
theorem checkEnv_pager_returns_witness :
    (badPagerEnv.getenv "PAGER" = some "nopager" ∧ badPagerEnv.canExec "nopager" = false ∧
      badPagerEnv.canExec "less" = true) ∧
    ((∀ p, checkEnv_pagerExec badPagerEnv p = ⟨p, [], [("nopager", ["nopager"])], .returned⟩) ∧
    ∃ c, (checkEnv badPagerEnv (fun _ => true) stdProc).children[2]? = some (some c) ∧
      c.fin = .returned ∧ c.tried = [("nopager", ["nopager"])]) :=
  ⟨⟨by decide, by decide, by decide⟩,
    checkEnv_pager_returns badPagerEnv (fun _ => true) stdProc "nopager"
      (by decide) (by decide) rfl⟩

/-! ## C2: a failed fork in `executeCmd` -/

/-- C2: when `fork()` fails in a foreground `executeCmd`, the parent reports
the failure and then goes on as if a child existed: it calls
`waitpid(-1, &status, 0)`, which is a wait for any child, and prints the
`exited, time used` report. The background path `executeCmdBg` only reports. -/
theorem executeCmd_fork_failure_waits (e : Env) (p : Proc) (buff : Buff) :
    executeCmd e p buff 0 (-1) =
      { child := none
        ops := [.perror "fork", .gettimeofday, .waitpid (-1), .gettimeofday,
          .report (buff.getD 0 none)] } ∧
    (∀ k, waitpid k (-1) = wait k) ∧
    executeCmdBg e p buff (-1) = { child := none, ops := [.perror "fork"] } :=
  ⟨rfl, fun _ => rfl, rfl⟩

/-! ## C3: the `SIGCHLD` handler -/

/-- C3, as amended: with at least one terminated child not yet waited for, one
invocation of `SIGCHLD_handler` returns and has taken exactly one of them, the
oldest; all others are still there, and the running children are untouched. -/
theorem SIGCHLD_handler_reaps_one (k : Kids) (h : k.zombies ≠ []) :
    ∃ r, SIGCHLD_handler k = some r ∧
      r.reaped = k.zombies.head?.map Prod.fst ∧
      r.kids.zombies = k.zombies.tail ∧
      r.kids.zombies.length + 1 = k.zombies.length ∧
      r.kids.running = k.running := by
  obtain ⟨running, zombies⟩ := k
  cases zombies with
  | nil => exact absurd rfl h
  | cons z rest =>
    obtain ⟨pid, st⟩ := z
    cases st with
    | exited c => exact ⟨_, rfl, rfl, rfl, rfl, rfl⟩
    | signaled s => exact ⟨_, rfl, rfl, rfl, rfl, rfl⟩

/-- C3 with three terminated children: one invocation leaves two. -/
theorem SIGCHLD_handler_reaps_one_witness :
    (⟨[9], [(4, .exited 0), (5, .signaled 15), (6, .exited 1)]⟩ : Kids).zombies ≠ [] ∧
    ∃ r, SIGCHLD_handler ⟨[9], [(4, .exited 0), (5, .signaled 15), (6, .exited 1)]⟩ = some r ∧
      r.reaped = (⟨[9], [(4, .exited 0), (5, .signaled 15), (6, .exited 1)]⟩ :
        Kids).zombies.head?.map Prod.fst ∧
      r.kids.zombies = (⟨[9], [(4, .exited 0), (5, .signaled 15), (6, .exited 1)]⟩ :
        Kids).zombies.tail ∧
      r.kids.zombies.length + 1 = (⟨[9], [(4, .exited 0), (5, .signaled 15), (6, .exited 1)]⟩ :
        Kids).zombies.length ∧
      r.kids.running = (⟨[9], [(4, .exited 0), (5, .signaled 15), (6, .exited 1)]⟩ :
        Kids).running :=
  ⟨by decide, SIGCHLD_handler_reaps_one _ (by decide)⟩

/-- C3 as stated fails with two terminated children: after one invocation of
the handler the second one is still not waited for. -/
theorem SIGCHLD_handler_leaves_a_child :
    SIGCHLD_handler ⟨[], [(1, .exited 0), (2, .exited 0)]⟩ =
      some ⟨⟨[], [(2, .exited 0)]⟩, some 1, ["exited!\n"], []⟩ ∧
    ¬ (∀ k r, k.zombies ≠ [] → SIGCHLD_handler k = some r → r.kids.zombies = []) := by
  refine ⟨rfl, fun h => ?_⟩
  have h2 := h ⟨[], [(1, .exited 0), (2, .exited 0)]⟩ _ (by decide) rfl
  revert h2
  decide

/-! ## C4: `cd` without an argument -/

/-- C4: while `HOME` is not set, `cd(NULL)` calls `cd(getHOME())`, which is
`cd(NULL)` again: no depth of recursion is enough for the call to return. -/
theorem cd_without_HOME_never_returns (e : Env) (h : e.getenv "HOME" = none) (fuel : Nat) :
    cd e fuel none = none := by
  induction fuel with
  | zero => rfl
  | succ n ih => simp [cd, getHOME, h, ih]

/-- C4 in an environment without variables. -/
theorem cd_without_HOME_never_returns_witness :
    plainEnv.getenv "HOME" = none ∧ cd plainEnv 1000 none = none :=
  ⟨rfl, cd_without_HOME_never_returns plainEnv rfl 1000⟩

/-- While `HOME` is set, `cd(NULL)` returns after one `chdir` to it, with the
value `chdir` decides. -/
theorem cd_with_HOME (e : Env) (home : String) (h : e.getenv "HOME" = some home) (fuel : Nat) :
    cd e (fuel + 2) none =
      some (if e.chdirOk home then ⟨0, [], [home]⟩
        else ⟨1, ["Could not cd to " ++ home], [home]⟩) := by
  simp only [cd, getHOME, h]
  split <;> simp

/-! ## C7: the child of a command that cannot be executed -/

theorem freeBuff_fst (buff : Buff) : (freeBuff buff).1 = List.replicate buff.length none := by
  induction buff with
  | nil => rfl
  | cons x rest ih => cases x <;> simp [freeBuff, ih, List.replicate_succ]

theorem freeBuff_snd (buff : Buff) : (freeBuff buff).2 = buff.reduceOption := by
  induction buff with
  | nil => rfl
  | cons x rest ih =>
    cases x with
    | none => simp [freeBuff, ih, List.reduceOption_cons_of_none]
    | some s => simp [freeBuff, ih, List.reduceOption_cons_of_some]

theorem execvpOrExit_failed (e : Env) (p : Proc) (buff : Buff) (file : String)
    (h0 : buff.getD 0 none = some file) (hx : e.canExec file = false) :
    execvpOrExit e p buff = ⟨p, (freeBuff buff).2, [(file, argvOf buff)], .exited 1⟩ := by
  unfold execvpOrExit
  rw [h0]
  simp [hx]

/-- C7: in `executeCmd`, foreground or background, and in `executeCmdBg`, the
child of a command `buff[0]` whose `execvp` fails frees every string of the
argument buffer, leaving all slots `NULL`, and ends with `exit(1)`; it does
not return into the loop of `main`. -/
theorem failed_exec_child_exits (e : Env) (p : Proc) (buff : Buff) (background : Nat)
    (pid : Int) (file : String) (hpid : pid ≠ -1)
    (h0 : buff.getD 0 none = some file) (hx : e.canExec file = false) :
    ∃ c, (executeCmd e p buff background pid).child = some c ∧
      (executeCmdBg e p buff pid).child = some c ∧
      c.tried = [(file, argvOf buff)] ∧
      c.fin = .exited 1 ∧ c.fin ≠ .returned ∧
      c.freed = (freeBuff buff).2 ∧
      (freeBuff buff).2 = buff.reduceOption ∧
      (freeBuff buff).1 = List.replicate buff.length none := by
  have h := execvpOrExit_failed e (forked p) buff file h0 hx
  refine ⟨execvpOrExit e (forked p) buff, ?_, ?_, ?_, ?_, ?_, ?_, freeBuff_snd buff,
    freeBuff_fst buff⟩
  · unfold executeCmd executeCmdBg
    split <;> simp [hpid]
  · simp [executeCmdBg, hpid]
  · rw [h]
  · rw [h]
  · rw [h]
    simp
  · rw [h]

/-- C7 at the command line `nopager -x`, a program that cannot be executed, in
the foreground. -/
theorem failed_exec_child_exits_witness :
    ((4321 : Int) ≠ -1 ∧
      [some "nopager", some "-x", none].getD 0 none = some "nopager" ∧
      badPagerEnv.canExec "nopager" = false) ∧
    ∃ c, (executeCmd badPagerEnv stdProc [some "nopager", some "-x", none] 0 4321).child
        = some c ∧
      (executeCmdBg badPagerEnv stdProc [some "nopager", some "-x", none] 4321).child
        = some c ∧
      c.tried = [("nopager", argvOf [some "nopager", some "-x", none])] ∧
      c.fin = .exited 1 ∧ c.fin ≠ .returned ∧
      c.freed = (freeBuff [some "nopager", some "-x", none]).2 ∧
      (freeBuff [some "nopager", some "-x", none]).2
        = [some "nopager", some "-x", none].reduceOption ∧
      (freeBuff [some "nopager", some "-x", none]).1
        = List.replicate [some "nopager", some "-x", none].length none :=
  ⟨⟨by decide, by decide, by decide⟩,
    failed_exec_child_exits badPagerEnv stdProc [some "nopager", some "-x", none] 0 4321
      "nopager" (by decide) (by decide) (by decide)⟩

/-! ## C8: the handler and the foreground wait -/

/-- C8: `executeCmd` does not hold `SIGCHLD` around its `waitpid`, and the
handler waits for any child. When the foreground child terminates before the
parent has reached `waitpid(pid, ..)`, the handler takes that very child and
the `waitpid` of `executeCmd` then fails. -/
theorem handler_takes_foreground_child (e : Env) (p : Proc) (buff : Buff) (pid : Nat) :
    (afterForegroundFork e p buff pid).held = false ∧
    Op.sighold_SIGCHLD ∉ (executeCmd e p buff 0 pid).ops ∧
    (runEvents (afterForegroundFork e p buff pid)
      [.childExits pid (.exited 0), .signal, .parent, .parent]).log
      = [.handler (some pid), .did .gettimeofday, .waitFailed] := by
  have hne : (pid : Int) ≠ -1 := by omega
  refine ⟨rfl, ?_, ?_⟩
  · simp [executeCmd, hne]
  · simp [runEvents, afterForegroundFork, executeCmd, hne, step, parentStep, SIGCHLD_handler,
      wait, waitpid]

/-- While `SIGCHLD` is held, as `checkEnv` and `checkEnvArg` hold it around
their waits, a pending signal does not run the handler. -/
theorem held_signal_waits (s : Sys) (hh : s.held = true) (hi : s.inHandler = false) :
    step s .signal = s := by
  simp [step, hh, hi]

/-! ## C9: a line without a word -/

theorem strtok_spaces (s : List Char) (h : ∀ c ∈ s, c = ' ') : strtok s = none := by
  have hd : s.dropWhile (fun c => c == ' ') = [] := by
    rw [List.dropWhile_eq_nil_iff]
    intro c hc
    simp [h c hc]
  simp [strtok, hd]

theorem dropLast_spaces (line : List Char) (h : ∀ c ∈ stripNewline line, c = ' ') :
    ∀ c ∈ line.dropLast, c = ' ' := by
  intro c hc
  unfold stripNewline at h
  split at h
  · exact h c hc
  · exact h c (List.mem_of_mem_dropLast hc)

/-- C9: for every line `fgets` delivers that holds no word (only spaces, with
or without the newline at its end), whatever the buffer held before and
whatever `malloc` would answer: `readline` returns 0 with every slot of `buff`
`NULL`, and the iteration of the loop of `main` is a `continue` that calls
none of `pwd`, `cd`, `checkEnv`, `checkEnvArg`, `executeCmd`. -/
theorem empty_line_reprompts (malloc : Nat → Bool) (line : List Char) (buff : Buff)
    (hne : line ≠ []) (hsp : ∀ c ∈ stripNewline line, c = ' ') :
    readline malloc (some line) (freeBuff buff).1
      = some (.ret 0 (List.replicate buff.length none)) ∧
    (List.replicate buff.length (none : Option String)).getD 0 none = none ∧
    mainIteration malloc (some line) buff = some .again := by
  have hr : readline malloc (some line) (freeBuff buff).1
      = some (.ret 0 (List.replicate buff.length none)) := by
    cases line with
    | nil => exact absurd rfl hne
    | cons c cs =>
      simp only [readline, readlineLoop,
        strtok_spaces _ (dropLast_spaces (c :: cs) hsp), freeBuff_fst]
  have hg : (List.replicate buff.length (none : Option String)).getD 0 none = none := by
    cases buff <;> simp [List.replicate_succ]
  refine ⟨hr, hg, ?_⟩
  simp only [mainIteration, hr]
  simp [dispatch, hg]

/-- C9 at the line of two spaces and a newline, with words left in the buffer
from the round before. -/
theorem empty_line_reprompts_witness :
    ([' ', ' ', '\n'] ≠ [] ∧ ∀ c ∈ stripNewline [' ', ' ', '\n'], c = ' ') ∧
    (readline (fun _ => true) (some [' ', ' ', '\n']) (freeBuff [some "ls", none, none]).1
      = some (.ret 0 (List.replicate [some "ls", none, none].length none)) ∧
    (List.replicate [some "ls", none, none].length (none : Option String)).getD 0 none = none ∧
    mainIteration (fun _ => true) (some [' ', ' ', '\n']) [some "ls", none, none]
      = some .again) :=
  ⟨⟨by decide, by decide⟩,
    empty_line_reprompts (fun _ => true) [' ', ' ', '\n'] [some "ls", none, none]
      (by decide) (by decide)⟩

/-! ## C10: the words `readline` stores -/

theorem dropLast_snoc (line : List Char) (x : Char) : (line ++ [x]).dropLast = line := by
  simp

/-- C10: `readline` never looks at the last byte of the line, newline or not:
two lines that differ in their last byte only leave the same words. So a line
that arrives without a newline at its end (the last line of the input, or the
first 127 bytes of a longer line) loses a byte of a word: from `ab` the word
stored is `a`, and from `ls -l` the words are `ls` and `-`; with the newline
present they are `ls` and `-l`. The buffer has `n + 2` slots, all `NULL`
(`n = 126` in the shell). -/
theorem readline_drops_last_byte (n : Nat) :
    (∀ (malloc : Nat → Bool) (line : List Char) (x y : Char) (buff : Buff),
      readline malloc (some (line ++ [x])) buff = readline malloc (some (line ++ [y])) buff) ∧
    readline (fun _ => true) (some ['a', 'b']) (List.replicate (n + 2) none)
      = some (.ret 0 (some "a" :: List.replicate (n + 1) none)) ∧
    readline (fun _ => true) (some ['l', 's', ' ', '-', 'l']) (List.replicate (n + 2) none)
      = some (.ret 0 (some "ls" :: some "-" :: List.replicate n none)) ∧
    readline (fun _ => true) (some ['l', 's', ' ', '-', 'l', '\n'])
      (List.replicate (n + 2) none)
      = some (.ret 0 (some "ls" :: some "-l" :: List.replicate n none)) := by
  refine ⟨?_, ?_, ?_, ?_⟩
  · intro malloc line x y buff
    have h : ∀ z : Char, readline malloc (some (line ++ [z])) buff
        = readlineLoop malloc (line.length + 2) line 0 buff := by
      intro z
      cases hl : line ++ [z] with
      | nil => simp at hl
      | cons c cs =>
        have h1 : (c :: cs).dropLast = line := by rw [← hl]; exact dropLast_snoc line z
        have h2 : (c :: cs).length = line.length + 1 := by rw [← hl]; simp
        simp only [readline, h1, h2]
    rw [h x, h y]
  · simp [readline, readlineLoop, strtok, List.replicate_succ, List.dropLast]
  · simp [readline, readlineLoop, strtok, List.replicate_succ, List.dropLast]
  · simp [readline, readlineLoop, strtok, List.replicate_succ, List.dropLast]

/-! ## C11: `readline` stays inside `buff` -/

/-- What `dropWhile` leaves starts with an element the test rejects, and is
no longer than the list. -/
theorem dropWhile_cons_spec (p : Char → Bool) (s : List Char) (c : Char) (cs : List Char)
    (h : s.dropWhile p = c :: cs) : p c = false ∧ cs.length + 1 ≤ s.length := by
  induction s with
  | nil => simp at h
  | cons x xs ih =>
    rw [List.dropWhile_cons] at h
    by_cases hx : p x = true
    · rw [if_pos hx] at h
      obtain ⟨h1, h2⟩ := ih h
      exact ⟨h1, by simp only [List.length_cons]; omega⟩
    · rw [if_neg hx] at h
      injection h with h1 h2
      subst h1
      subst h2
      exact ⟨by simpa using hx, le_refl _⟩

theorem length_dropWhile_le (p : Char → Bool) (s : List Char) :
    (s.dropWhile p).length ≤ s.length := by
  induction s with
  | nil => simp
  | cons x xs ih =>
    rw [List.dropWhile_cons]
    split
    · simp only [List.length_cons]; omega
    · exact le_refl _

/-- Each token `strtok` finds uses up at least one byte; when something is
left to scan after it, the token and the space behind it used up two. -/
theorem strtok_progress (s tok rest : List Char) (h : strtok s = some (tok, rest)) :
    tok ≠ [] ∧ 1 ≤ s.length ∧ (rest = [] ∨ rest.length + 2 ≤ s.length) := by
  unfold strtok at h
  cases hd : s.dropWhile (fun c => c == ' ') with
  | nil => simp [hd] at h
  | cons c cs =>
    obtain ⟨hc, hlen⟩ := dropWhile_cons_spec _ s c cs hd
    have hc2 : (c != ' ') = true := by simpa using hc
    simp only [hd, Option.some.injEq, Prod.mk.injEq] at h
    obtain ⟨h1, h2⟩ := h
    refine ⟨?_, by omega, ?_⟩
    · rw [← h1, List.takeWhile_cons, if_pos hc2]
      simp
    · rw [List.dropWhile_cons, if_pos hc2] at h2
      have hl := length_dropWhile_le (fun c => c != ' ') cs
      cases hr : cs.dropWhile (fun c => c != ' ') with
      | nil =>
        rw [hr] at h2
        exact Or.inl h2.symm
      | cons d ds =>
        rw [hr] at h2 hl
        simp only [List.tail_cons] at h2
        simp only [List.length_cons] at hl
        exact Or.inr (by rw [← h2]; omega)

/-- Storing a word in the first `NULL` slot of a buffer that holds the words
`ws` followed by `k + 1` `NULL` slots. -/
theorem set_first_free (ws : List String) (k : Nat) (w : String) :
    (ws.map some ++ List.replicate (k + 1) none).set ws.length (some w)
      = (ws ++ [w]).map some ++ List.replicate k none := by
  induction ws with
  | nil => simp [List.replicate_succ]
  | cons x xs ih => simpa using ih

/-- The loop of `readline` on a buffer that holds the words `ws` followed by
`k` `NULL` slots, with enough iterations allowed and `k` more than half the
bytes left to scan: it ends, never with a store outside the buffer; either a
`malloc` failed and the process exits, or it returns 0 having appended words
`ws1`, at most one per two bytes scanned, and at least one `NULL` slot is left. -/
theorem readlineLoop_inside (malloc : Nat → Bool) :
    ∀ (fuel : Nat) (rest : List Char) (ws : List String) (k : Nat),
      rest.length < fuel → rest.length + 2 ≤ 2 * k →
      (∃ freed, readlineLoop malloc fuel rest ws.length
          (ws.map some ++ List.replicate k none) = some (.exited 1 freed) ∧
          ∃ i, malloc i = false) ∨
      (∃ ws1 : List String, readlineLoop malloc fuel rest ws.length
          (ws.map some ++ List.replicate k none)
          = some (.ret 0 ((ws ++ ws1).map some ++ List.replicate (k - ws1.length) none)) ∧
          2 * ws1.length ≤ rest.length + 1 ∧ ws1.length < k) := by
  intro fuel
  induction fuel with
  | zero => intro rest ws k h; omega
  | succ n ih =>
    intro rest ws k hf hk
    cases hs : strtok rest with
    | none =>
      refine Or.inr ⟨[], ?_, by simp, by simp; omega⟩
      simp [readlineLoop, hs]
    | some pr =>
      obtain ⟨tok, rest1⟩ := pr
      obtain ⟨_, h1, h2⟩ := strtok_progress rest tok rest1 hs
      cases hm : malloc ws.length with
      | false =>
        refine Or.inl ⟨argvOf (ws.map some ++ List.replicate k none), ?_, ws.length, hm⟩
        simp [readlineLoop, hs, hm]
      | true =>
        obtain ⟨j, rfl⟩ : ∃ j, k = j + 1 := ⟨k - 1, by omega⟩
        have hstep : readlineLoop malloc (n + 1) rest ws.length
            (ws.map some ++ List.replicate (j + 1) none)
            = readlineLoop malloc n rest1 (ws ++ [String.mk tok]).length
              ((ws ++ [String.mk tok]).map some ++ List.replicate j none) := by
          simp only [readlineLoop, hs, hm, if_true, set_first_free, List.length_append,
            List.length_singleton]
          rw [if_pos (by simp)]
        have hf1 : rest1.length < n := by
          rcases h2 with h2 | h2
          · rw [h2]; simp only [List.length_nil]; omega
          · omega
        have hk1 : rest1.length + 2 ≤ 2 * j := by
          rcases h2 with h2 | h2
          · rw [h2]; simp only [List.length_nil]; omega
          · omega
        rcases ih rest1 (ws ++ [String.mk tok]) j hf1 hk1 with ⟨freed, e1, e2⟩ | ⟨ws1, e1, e2, e3⟩
        · exact Or.inl ⟨freed, by rw [hstep, e1], e2⟩
        · refine Or.inr ⟨String.mk tok :: ws1, ?_, ?_, ?_⟩
          · rw [hstep, e1]
            simp
          · simp only [List.length_cons]
            rcases h2 with h2 | h2
            · rw [h2] at e2; simp only [List.length_nil] at e2; omega
            · omega
          · simp only [List.length_cons]; omega

theorem argvOf_words (ws : List String) (k : Nat) :
    argvOf (ws.map some ++ List.replicate k none) = ws := by
  induction ws with
  | nil => cases k <;> simp [argvOf, List.replicate_succ]
  | cons x xs ih => simpa [argvOf] using ih

theorem slot_after_words (ws : List String) (k : Nat) :
    (ws.map some ++ List.replicate (k + 1) none)[ws.length]? = some none := by
  induction ws with
  | nil => simp [List.replicate_succ]
  | cons x xs ih => simpa using ih

/-- C11: for every non-empty string of at most 127 bytes in `tmp`, whatever
`malloc` answers, and a `buff` of `BUFFSIZE = 128` slots that are all `NULL`:
`readline` ends without a store outside `tmp` or `buff`; when it returns, it
returns 0 and `buff` holds `n` words followed by `NULL` slots only, with
`n <= 64 < BUFFSIZE` and slot `n` inside the buffer and `NULL`, so that the
argument vector `exec` reads from it is exactly these words; and it does
return when no `malloc` fails. -/
theorem readline_stays_inside_buff (malloc : Nat → Bool) (line : List Char) (buff : Buff)
    (hne : line ≠ []) (hlen : line.length ≤ 127)
    (hb : buff.length = BUFFSIZE) (hnull : ∀ s ∈ buff, s = none) :
    (∃ r, readline malloc (some line) buff = some r ∧ r ≠ .undefined) ∧
    (∀ code b, readline malloc (some line) buff = some (.ret code b) →
      code = 0 ∧ ∃ ws : List String, ws.length ≤ 64 ∧ 64 < BUFFSIZE ∧
        b = ws.map some ++ List.replicate (BUFFSIZE - ws.length) none ∧
        b.length = BUFFSIZE ∧ b[ws.length]? = some none ∧ argvOf b = ws) ∧
    ((∀ i, malloc i = true) → ∃ b, readline malloc (some line) buff = some (.ret 0 b)) := by
  have hbuff : buff = (([] : List String).map some ++ List.replicate 128 none) := by
    rw [List.map_nil, List.nil_append, List.eq_replicate_iff]
    exact ⟨hb, fun s hs => hnull s hs⟩
  cases line with
  | nil => exact absurd rfl hne
  | cons c cs =>
    have hd : (c :: cs).dropLast.length = cs.length := by simp
    simp only [List.length_cons] at hlen
    have hrl : readline malloc (some (c :: cs)) buff
        = readlineLoop malloc ((c :: cs).length + 1) (c :: cs).dropLast
          ([] : List String).length (([] : List String).map some ++ List.replicate 128 none) := by
      rw [hbuff]
      rfl
    have key := readlineLoop_inside malloc ((c :: cs).length + 1) (c :: cs).dropLast [] 128
      (by rw [hd]; simp only [List.length_cons]; omega) (by rw [hd]; omega)
    rw [← hrl] at key
    rcases key with ⟨freed, e1, i, e2⟩ | ⟨ws1, e1, e2, e3⟩
    · refine ⟨⟨_, e1, by simp⟩, ?_, ?_⟩
      · intro code b h
        rw [e1] at h
        simp at h
      · intro hall
        rw [hall i] at e2
        simp at e2
    · rw [hd] at e2
      have hn : ws1.length ≤ 63 := by omega
      refine ⟨⟨_, e1, by simp⟩, ?_, fun _ => ⟨_, e1⟩⟩
      intro code b h
      rw [e1] at h
      simp only [Option.some.injEq, ReadlineResult.ret.injEq] at h
      obtain ⟨h1, h2⟩ := h
      subst h2
      refine ⟨h1.symm, ws1, by omega, by decide, by simp [BUFFSIZE], ?_, ?_, ?_⟩
      · simp [BUFFSIZE]
        omega
      · obtain ⟨j, hj⟩ : ∃ j, 128 - ws1.length = j + 1 := ⟨127 - ws1.length, by omega⟩
        rw [List.nil_append, hj]
        exact slot_after_words ws1 j
      · rw [List.nil_append]
        exact argvOf_words ws1 _

/-- C11 at the line `ls -l` with its newline and the cleared buffer of the
shell, when every `malloc` succeeds. -/
theorem readline_stays_inside_buff_witness :
    (['l', 's', ' ', '-', 'l', '\n'] ≠ [] ∧ ['l', 's', ' ', '-', 'l', '\n'].length ≤ 127 ∧
      (List.replicate BUFFSIZE (none : Option String)).length = BUFFSIZE ∧
      ∀ s ∈ List.replicate BUFFSIZE (none : Option String), s = none) ∧
    ((∃ r, readline (fun _ => true) (some ['l', 's', ' ', '-', 'l', '\n'])
        (List.replicate BUFFSIZE none) = some r ∧ r ≠ .undefined) ∧
    (∀ code b, readline (fun _ => true) (some ['l', 's', ' ', '-', 'l', '\n'])
        (List.replicate BUFFSIZE none) = some (.ret code b) →
      code = 0 ∧ ∃ ws : List String, ws.length ≤ 64 ∧ 64 < BUFFSIZE ∧
        b = ws.map some ++ List.replicate (BUFFSIZE - ws.length) none ∧
        b.length = BUFFSIZE ∧ b[ws.length]? = some none ∧ argvOf b = ws) ∧
    ((∀ i : Nat, (fun _ : Nat => true) i = true) → ∃ b, readline (fun _ => true)
      (some ['l', 's', ' ', '-', 'l', '\n']) (List.replicate BUFFSIZE none)
        = some (.ret 0 b))) :=
  ⟨⟨by decide, by decide, List.length_replicate _ _, fun _ hs => List.eq_of_mem_replicate hs⟩,
    readline_stays_inside_buff (fun _ => true) ['l', 's', ' ', '-', 'l', '\n']
      (List.replicate BUFFSIZE none) (by decide) (by decide) (List.length_replicate _ _)
      (fun _ hs => List.eq_of_mem_replicate hs)⟩

end Shell
